import Mathlib

/-!
# Verification of the clawup orchestration core

Shallow embedding of the rule & bounds engine (`src/core/rule-engine.ts`
together with the bounds helpers of `src/core/config-loader.ts`), the
similarity detector (`src/services/similarity.ts`), and the pipeline runner
(`src/core/pipeline-runner.ts`).

Modelling conventions:
* JavaScript numbers are modelled as `ℚ` (no floating point enters any
  proved statement); the JS value `Infinity`, which the source produces for
  absent limits, is the `inf` constructor of `XNum`.
* External collaborators (the SQLite storage layer, the Telegram notifier,
  the tone-adapter service, wall-clock time) are passed in explicitly as
  oracle parameters / environment state, mirroring the narrow interfaces in
  section 6 of the design. The functions of this file never perform IO.
* The YAML bounds document is modelled as a nested association list of
  numeric limits (`BoundsQ`). In the source, the typed accesses
  (`bounds.evolution?.confidence?.min_to_apply`) and the generic record
  indexing done by `checkBounds` read the same loaded object, so a single
  nested map models both views.
* String rendering of rationals inside human-readable reason strings uses
  Lean's `toString` on `ℚ` (the source renders JS doubles); no claim
  inspects the numeric part of a reason string.
-/

namespace Clawup

/-- JS number that may be `Infinity` (the source stores `Infinity` in the
`limit`/`remaining` fields of a `LimitCheckResult` for unbounded actions). -/
inductive XNum where
  | fin (q : ℚ)
  | inf
deriving DecidableEq, Repr

/-- JS subtraction `limit - current` where `limit` may be `Infinity`. -/
def XNum.subQ : XNum → ℚ → XNum
  | .fin q, c => .fin (q - c)
  | .inf, _ => .inf

/-- JS `Math.max(0, x)` where `x` may be `Infinity`. -/
def XNum.max0 : XNum → XNum
  | .fin q => .fin (max 0 q)
  | .inf => .inf

/-- The numeric-limit view of the loaded `bounds.yaml` document:
category → subcategory → key → number, as traversed by `checkBounds` in
`config-loader.ts` via plain record indexing. -/
def BoundsQ : Type := List (String × List (String × List (String × ℚ)))

/-- Nested lookup `bounds[cat]?.[sub]?.[key]` on the bounds document. -/
def qlookup (b : BoundsQ) (cat sub key : String) : Option ℚ :=
  (b.lookup cat).bind fun c => (c.lookup sub).bind fun s => s.lookup key

/-- `bounds.evolution?.confidence?.min_to_apply ?? 0.5`
(rule-engine.ts line 69). -/
def minToApply (b : BoundsQ) : ℚ :=
  (qlookup b "evolution" "confidence" "min_to_apply").getD 0.5

/-- Rendering of a rational inside a reason string (see header note). -/
def ratStr (q : ℚ) : String := toString q

/-- Result shape of `checkBounds` (config-loader.ts lines 670-699). -/
structure BoundsCheck where
  allowed : Bool
  limit : XNum
  reason : Option String
deriving DecidableEq, Repr

/-- `checkBounds(category, subcategory, key, value)` from config-loader.ts:
missing category, subcategory or key each yield `allowed` with an
`Infinity` limit; otherwise compare `value <= limit`. -/
def checkBounds (b : BoundsQ) (category subcategory key : String) (value : ℚ) :
    BoundsCheck :=
  match b.lookup category with
  | none => ⟨true, .inf, none⟩
  | some categoryBounds =>
    match categoryBounds.lookup subcategory with
    | none => ⟨true, .inf, none⟩
    | some subcategoryBounds =>
      match subcategoryBounds.lookup key with
      | none => ⟨true, .inf, none⟩
      | some limit =>
        if value ≤ limit then ⟨true, .fin limit, none⟩
        else ⟨false, .fin limit,
          some ("Exceeds limit: " ++ ratStr value ++ " > " ++ ratStr limit)⟩

/-- The `timing` section of the rules document (`TimingRules` in
types/index.ts); the experiment-bookkeeping fields are carried by the
document but never read by the engine, so they are not modelled. -/
structure TimingRules where
  best_hours : List Nat
  avoid_hours : List Nat
  avoid_days : List String
  confidence : ℚ
deriving DecidableEq, Repr

/-- The rules snapshot as consumed by `checkTimingRules`; the content /
engagement / hashtag sections are independent of the timing check. -/
structure RulesState where
  timing : TimingRules
deriving DecidableEq, Repr

/-- Result shape of `checkTimingRules` (rule-engine.ts lines 22-28). -/
structure TimingCheckResult where
  isOptimal : Bool
  currentHour : Nat
  bestHours : List Nat
  confidence : ℚ
  reason : String
deriving DecidableEq, Repr

/-- `[...].join(', ')` over the best-hours list. -/
def natJoin (l : List Nat) : String := String.intercalate ", " (l.map toString)

/-- `checkTimingRules(forceCheck)` from rule-engine.ts lines 59-125.
The current hour and weekday, read from `new Date()` in the source, are
explicit parameters; `rules`/`bounds` are the cached snapshots loaded by
`getRules()` / `loadBounds()`. -/
def checkTimingRules (rules : RulesState) (bounds : BoundsQ)
    (currentHour : Nat) (currentDay : String) (forceCheck : Bool) :
    TimingCheckResult :=
  let timing := rules.timing
  let minConfidence := minToApply bounds
  if timing.confidence < minConfidence ∧ forceCheck = false then
    ⟨true, currentHour, timing.best_hours, timing.confidence,
      "Insufficient confidence (" ++ ratStr timing.confidence ++ " < " ++
        ratStr minConfidence ++ "), allowing"⟩
  else if timing.avoid_days.contains currentDay then
    ⟨false, currentHour, timing.best_hours, timing.confidence,
      currentDay ++ " is in avoid_days list"⟩
  else if timing.avoid_hours.contains currentHour then
    ⟨false, currentHour, timing.best_hours, timing.confidence,
      "Hour " ++ toString currentHour ++ " is in avoid_hours list"⟩
  else if timing.best_hours.length > 0 then
    let isOptimal := timing.best_hours.contains currentHour
    ⟨isOptimal, currentHour, timing.best_hours, timing.confidence,
      if isOptimal then "Hour " ++ toString currentHour ++ " is in best_hours"
      else "Hour " ++ toString currentHour ++ " is not in best_hours [" ++
        natJoin timing.best_hours ++ "]"⟩
  else
    ⟨true, currentHour, [], 0, "No timing rules defined"⟩

/-- Result shape of `checkDailyLimits` (rule-engine.ts lines 30-36). -/
structure LimitCheckResult where
  allowed : Bool
  current : Nat
  limit : XNum
  remaining : XNum
  limitType : String
deriving DecidableEq, Repr

/-- The action-type → bounds category/key map of `checkDailyLimits`
(rule-engine.ts lines 138-148). -/
def limitMap (actionType : String) : Option (String × String) :=
  if actionType = "post" then some ("posting", "max_per_day")
  else if actionType = "like" then some ("engagement", "max_likes_per_day")
  else if actionType = "follow" then some ("engagement", "max_follows_per_day")
  else if actionType = "follow_back" then some ("engagement", "max_follows_per_day")
  else if actionType = "unfollow" then some ("engagement", "max_unfollows_per_day")
  else if actionType = "comment" then some ("engagement", "max_comments_per_day")
  else if actionType = "reply" then some ("engagement", "max_comments_per_day")
  else if actionType = "repost" then some ("engagement", "max_reposts_per_day")
  else if actionType = "dm" then some ("engagement", "max_dms_per_day")
  else none

/-- `checkDailyLimits(actionType, platform)` from rule-engine.ts lines
131-180. The storage collaborator's `getTodayPostCount` /
`getActivityCount` readers are oracle parameters. -/
def checkDailyLimits (bounds : BoundsQ)
    (getTodayPostCount : String → Nat) (getActivityCount : String → String → Nat)
    (actionType platform : String) : LimitCheckResult :=
  match limitMap actionType with
  | none => ⟨true, 0, .inf, .inf, "unknown"⟩
  | some (category, key) =>
    let current : Nat :=
      if actionType = "post" then getTodayPostCount platform
      else getActivityCount actionType platform
    let check := checkBounds bounds "sns" category key ((current : ℚ) + 1)
    ⟨check.allowed, current, check.limit,
      (check.limit.subQ (current : ℚ)).max0, key⟩

/-! ## Similarity detector (`src/services/similarity.ts`)

The regex passes of `preprocessText` are modelled by explicit left-to-right
scanners with the exact leftmost-greedy semantics of the JS `replace`
calls. The Dice coefficient is the `compareTwoStrings` /
`findBestMatch` pair of the `string-similarity` npm dependency, translated
from that library (bigram multiset intersection). -/

/-- The JS `\s` character class (whitespace as used by `replace(/\s+/g)`,
`trim`, and the `string-similarity` whitespace strip). -/
def isJsWs (c : Char) : Bool :=
  c = ' ' ∨ c = '\t' ∨ c = '\n' ∨ c = '\r' ∨ c.val = 0x0b ∨ c.val = 0x0c ∨
    c.val = 0xa0 ∨ c.val = 0x1680 ∨ (0x2000 ≤ c.val ∧ c.val ≤ 0x200a) ∨
    c.val = 0x2028 ∨ c.val = 0x2029 ∨ c.val = 0x202f ∨ c.val = 0x205f ∨
    c.val = 0x3000 ∨ c.val = 0xfeff

/-- The JS `\w` character class: ASCII letters, digits, underscore. -/
def isWordChar (c : Char) : Bool :=
  ('a' ≤ c ∧ c ≤ 'z') ∨ ('A' ≤ c ∧ c ≤ 'Z') ∨ ('0' ≤ c ∧ c ≤ '9') ∨ c = '_'

/-- `dropWhile` never lengthens a list (termination helper). -/
theorem lenDropWhileLe {α : Type} (p : α → Bool) (l : List α) :
    (l.dropWhile p).length ≤ l.length := by
  induction l with
  | nil => simp
  | cons a l ih =>
    by_cases h : p a = true
    · simp only [List.dropWhile_cons, h, if_true, List.length_cons]
      exact Nat.le_succ_of_le ih
    · simp [List.dropWhile_cons, h]

/-- One `replace(/https?:\/\/[^\s]+/g, '')` pass (similarity.ts line 37),
run on the already-lowercased text. A prefix `http(s)://` with no
non-whitespace character after it is not a match (the `[^\s]+` needs at
least one character), exactly as for the JS regex engine. -/
def removeUrls : List Char → List Char
  | [] => []
  | c :: rest =>
    if "https://".data.isPrefixOf (c :: rest) then
      let after := rest.drop 7
      if (after.takeWhile (fun ch => !isJsWs ch)).isEmpty then
        c :: removeUrls rest
      else removeUrls (after.dropWhile (fun ch => !isJsWs ch))
    else if "http://".data.isPrefixOf (c :: rest) then
      let after := rest.drop 6
      if (after.takeWhile (fun ch => !isJsWs ch)).isEmpty then
        c :: removeUrls rest
      else removeUrls (after.dropWhile (fun ch => !isJsWs ch))
    else c :: removeUrls rest
termination_by l => l.length
decreasing_by
  all_goals simp only [List.length_cons]
  all_goals first
    | exact Nat.lt_succ_self _
    | · have h1 := lenDropWhileLe (fun ch => !isJsWs ch) (rest.drop 7)
        have h2 := List.length_drop 7 rest
        omega
    | · have h1 := lenDropWhileLe (fun ch => !isJsWs ch) (rest.drop 6)
        have h2 := List.length_drop 6 rest
        omega

/-- One `replace(/m\w+/g, '')` pass for a marker character `m` (`@` for
mentions, similarity.ts line 40; `#` for hashtags, line 43). -/
def stripMarked (m : Char) : List Char → List Char
  | [] => []
  | c :: rest =>
    if c = m then
      if (rest.takeWhile isWordChar).isEmpty then c :: stripMarked m rest
      else stripMarked m (rest.dropWhile isWordChar)
    else c :: stripMarked m rest
termination_by l => l.length
decreasing_by
  all_goals simp only [List.length_cons]
  all_goals first
    | exact Nat.lt_succ_self _
    | · have h1 := lenDropWhileLe isWordChar rest
        omega

/-- `replace(/\s+/g, ' ')` (similarity.ts line 46). -/
def collapseWs : List Char → List Char
  | [] => []
  | c :: rest =>
    if isJsWs c then ' ' :: collapseWs (rest.dropWhile isJsWs)
    else c :: collapseWs rest
termination_by l => l.length
decreasing_by
  all_goals simp only [List.length_cons]
  all_goals first
    | exact Nat.lt_succ_self _
    | · have h1 := lenDropWhileLe isJsWs rest
        omega

/-- JS `String.prototype.trim`. -/
def jsTrim (l : List Char) : List Char :=
  ((l.dropWhile isJsWs).reverse.dropWhile isJsWs).reverse

/-- `preprocessText` (similarity.ts lines 33-49): lowercase, strip URLs,
strip `@`-mentions, strip `#`-hashtags, collapse whitespace, trim.
`Char.toLower` matches JS `toLowerCase` on ASCII (non-ASCII case mapping is
not modelled; no claim involves non-ASCII letters). -/
def preprocessText (text : String) : String :=
  String.mk (jsTrim (collapseWs
    (stripMarked '#' (stripMarked '@' (removeUrls
      (text.data.map Char.toLower))))))

/-- `first.replace(/\s+/g, '')` — the whitespace strip done inside the
`string-similarity` library's `compareTwoStrings`. -/
def stripAllWs (l : List Char) : List Char := l.filter (fun c => !isJsWs c)

/-- Adjacent character bigrams, as built by `compareTwoStrings`. -/
def bigrams : List Char → List (Char × Char)
  | a :: b :: rest => (a, b) :: bigrams (b :: rest)
  | _ => []

/-- Lookup in the bigram-count map (JS `Map.get`, absent key as 0). -/
def getCount (k : Char × Char) : List ((Char × Char) × Nat) → Nat
  | [] => 0
  | (k', n) :: rest => if k' = k then n else getCount k rest

/-- JS `Map.set` on the bigram-count map. -/
def setCount (k : Char × Char) (v : Nat) :
    List ((Char × Char) × Nat) → List ((Char × Char) × Nat)
  | [] => [(k, v)]
  | (k', n) :: rest =>
    if k' = k then (k', v) :: rest else (k', n) :: setCount k v rest

/-- Building the first string's bigram multiset (`firstBigrams`). -/
def buildCounts (l : List (Char × Char)) : List ((Char × Char) × Nat) :=
  l.foldl (fun m k => setCount k (getCount k m + 1) m) []

/-- The intersection-counting loop of `compareTwoStrings`: walk the second
string's bigrams, consuming matching entries of the first string's
multiset. -/
def interLoop : List ((Char × Char) × Nat) → List (Char × Char) → Nat
  | _, [] => 0
  | m, k :: rest =>
    let c := getCount k m
    if 0 < c then 1 + interLoop (setCount k (c - 1) m) rest
    else interLoop m rest

/-- `compareTwoStrings` from the `string-similarity` dependency: Dice
coefficient over character bigrams after stripping all whitespace; equal
stripped strings (including both empty) score 1, a stripped string of
fewer than 2 characters scores 0. -/
def compareTwoStrings (s1 s2 : String) : ℚ :=
  let f := stripAllWs s1.data
  let g := stripAllWs s2.data
  if f = g then 1
  else if f.length < 2 ∨ g.length < 2 then 0
  else
    let inter := interLoop (buildCounts (bigrams f)) (bigrams g)
    (2 * (inter : ℚ)) / ((f.length : ℚ) + (g.length : ℚ) - 2)

/-- The index-tracking fold of the library's `findBestMatch`: the best
index advances only on a strict improvement (first maximum wins). -/
def bestAux : ℚ → Nat → Nat → List ℚ → ℚ × Nat
  | best, bidx, _, [] => (best, bidx)
  | best, bidx, i, r :: rest =>
    if best < r then bestAux r i (i + 1) rest
    else bestAux best bidx (i + 1) rest

/-- `findBestMatch(mainString, targetStrings)` of the library, returning
`(bestMatch.rating, bestMatchIndex)`. On an empty target list the library
dereferences `ratings[0]`; that case is unreachable from `findMostSimilar`
(which returns early) and is given the inert value `(0, 0)`. -/
def findBestMatch (main : String) (targets : List String) : ℚ × Nat :=
  match targets.map (fun t => compareTwoStrings main t) with
  | [] => (0, 0)
  | r :: rest => bestAux r 0 1 rest

/-- `calculateSimilarity` (similarity.ts lines 55-65). -/
def calculateSimilarity (text1 text2 : String) : ℚ :=
  let processed1 := preprocessText text1
  let processed2 := preprocessText text2
  if processed1.length = 0 ∨ processed2.length = 0 then 0
  else compareTwoStrings processed1 processed2

/-- `findMostSimilar` (similarity.ts lines 67-88), returning
`(similarity, match)`; the matched entry is the *raw* corpus entry at the
best index. -/
def findMostSimilar (content : String) (compareTo : List String) :
    ℚ × Option String :=
  if compareTo.isEmpty then (0, none)
  else
    let processed := preprocessText content
    if processed.length = 0 then (0, none)
    else
      let processedComparisons := compareTo.map preprocessText
      let br := findBestMatch processed processedComparisons
      (br.1, compareTo.get? br.2)

/-- Result shape of `checkSimilarity` (similarity.ts lines 15-20). -/
structure SimilarityResult where
  isSimilar : Bool
  highestSimilarity : ℚ
  similarPost : Option String
  threshold : ℚ
deriving DecidableEq, Repr

/-- Options of `checkSimilarity` (similarity.ts lines 22-27); the `method`
field is read only by `checkSimilarityAdvanced`, which no claim covers. -/
structure SimilarityOptions where
  threshold : Option ℚ
  platform : Option String
  comparePosts : Option (List String)
deriving DecidableEq, Repr

/-- `checkSimilarity(content, options)` (similarity.ts lines 94-138). The
validator-config default threshold and the storage collaborator's
`getPostsForSimilarityCheck` are oracle parameters. -/
def checkSimilarity (validatorThreshold : Option ℚ)
    (getPostsForSimilarityCheck : String → List String)
    (content : String) (options : SimilarityOptions) : SimilarityResult :=
  let defaultThreshold := validatorThreshold.getD 0.6
  let threshold := options.threshold.getD defaultThreshold
  let platform := options.platform.getD "x"
  let comparePosts := options.comparePosts.getD
    (getPostsForSimilarityCheck platform)
  if comparePosts.isEmpty then ⟨false, 0, none, threshold⟩
  else
    let fm := findMostSimilar content comparePosts
    ⟨decide (threshold ≤ fm.1), fm.1, fm.2, threshold⟩

/-! ## Content rules: `addHashtags` (`rule-engine.ts` lines 293-310) -/

/-- The matches of `content.match(/#\w+/g)`: leftmost scan collecting each
`#` followed by one or more word characters (greedy), resuming after the
matched token. -/
def scanHashtags : List Char → List (List Char)
  | [] => []
  | c :: rest =>
    if c = '#' then
      if (rest.takeWhile isWordChar).isEmpty then scanHashtags rest
      else ('#' :: rest.takeWhile isWordChar) ::
        scanHashtags (rest.dropWhile isWordChar)
    else scanHashtags rest
termination_by l => l.length
decreasing_by
  all_goals simp only [List.length_cons]
  all_goals first
    | exact Nat.lt_succ_self _
    | · have h1 := lenDropWhileLe isWordChar rest
        omega

/-- JS `toLowerCase` over a matched token (ASCII case mapping; every
`/#\w+/` match is ASCII). -/
def lowerChars (l : List Char) : List Char := l.map Char.toLower

/-- JS `Array.prototype.join(' ')`. -/
def joinSpace : List (List Char) → List Char
  | [] => []
  | [t] => t
  | t :: ts => t ++ ' ' :: joinSpace ts

/-- `addHashtags(content, hashtags)` (rule-engine.ts lines 293-310): collect
the hashtags already present (case-insensitively), filter the parameter
list against them, return the content unchanged if nothing is new, else
append `\n\n` and the space-joined new tags. -/
def addHashtags (content : String) (hashtags : List String) : String :=
  let existingSet := (scanHashtags content.data).map lowerChars
  let newHashtags :=
    hashtags.filter fun h => !existingSet.contains (lowerChars h.data)
  if newHashtags.isEmpty then content
  else String.mk (content.data ++ '\n' :: '\n' ::
    joinSpace (newHashtags.map String.data))

/-- Total mass of the bigram-count map (proof-side accounting for the
intersection loop). -/
def totalCount (m : List ((Char × Char) × Nat)) : Nat :=
  (m.map Prod.snd).sum

/-! ## Pipeline runner: values, context, resolution, conditions
(`src/core/pipeline-runner.ts` and the resolver of `config-loader.ts`) -/

/-- JSON-like runtime values flowing through an execution context.
JS numbers are `ℚ` (integers render as decimal digits; no claim renders a
non-integral number). A JS `undefined` is represented by `Option.none` at
every lookup site rather than by a constructor. -/
inductive Value where
  | vNull
  | vBool (b : Bool)
  | vNum (q : ℚ)
  | vStr (s : String)
  | vList (xs : List Value)
  | vObj (fields : List (String × Value))
deriving Repr

/-- Decimal digits of a natural number (fuel-structured; `n` is fuel
enough since `n / 10 < n`). -/
def natDigitsAux : Nat → Nat → List Char
  | 0, _ => []
  | fuel + 1, n =>
    if n = 0 then []
    else natDigitsAux fuel (n / 10) ++ [Char.ofNat (48 + n % 10)]

/-- JS rendering of a natural number. -/
def natStr (n : Nat) : String :=
  if n = 0 then "0" else String.mk (natDigitsAux n n)

/-- JS rendering of an integer. -/
def intStr (i : Int) : String :=
  if i < 0 then "-" ++ natStr i.natAbs else natStr i.natAbs

/-- Rendering of a JS number: integers as decimal digits (the only numbers
any claim renders); non-integral rationals use a fraction notation, which
diverges from JS float formatting and is never relied upon. -/
def numStr (q : ℚ) : String :=
  if q.den = 1 then intStr q.num else intStr q.num ++ "/" ++ natStr q.den

/-- JSON string escaping for the common escapes (quote, backslash, newline,
carriage return, tab); other control characters pass through unescaped. -/
def jsonEscape : List Char → List Char
  | [] => []
  | c :: rest =>
    (if c = '"' then ['\\', '"']
     else if c = '\\' then ['\\', '\\']
     else if c = '\n' then ['\\', 'n']
     else if c = '\r' then ['\\', 'r']
     else if c = '\t' then ['\\', 't']
     else [c]) ++ jsonEscape rest

mutual
/-- `JSON.stringify` over `Value` (as used by the condition evaluator's
substitution). -/
def jsonStr : Value → String
  | .vNull => "null"
  | .vBool true => "true"
  | .vBool false => "false"
  | .vNum q => numStr q
  | .vStr s => "\"" ++ String.mk (jsonEscape s.data) ++ "\""
  | .vList xs => "[" ++ jsonStrList xs ++ "]"
  | .vObj fs => "\x7b" ++ jsonStrFields fs ++ "\x7d"

def jsonStrList : List Value → String
  | [] => ""
  | [x] => jsonStr x
  | x :: xs => jsonStr x ++ "," ++ jsonStrList xs

def jsonStrFields : List (String × Value) → String
  | [] => ""
  | [(k, v)] => "\"" ++ k ++ "\":" ++ jsonStr v
  | (k, v) :: fs => "\"" ++ k ++ "\":" ++ jsonStr v ++ "," ++ jsonStrFields fs
end

mutual
/-- JS `String(value)` coercion (used by the variable resolver). -/
def jsToString : Value → String
  | .vNull => "null"
  | .vBool true => "true"
  | .vBool false => "false"
  | .vNum q => numStr q
  | .vStr s => s
  | .vList xs => jsListStr xs
  | .vObj _ => "[object Object]"

/-- JS `Array.prototype.toString` = `join(',')`, with `null` elements
rendered empty. -/
def jsListStr : List Value → String
  | [] => ""
  | x :: xs =>
    (match x with
     | .vNull => ""
     | v => jsToString v) ++ (if xs.isEmpty then "" else ",") ++ jsListStr xs
end

/-- JS truthiness of a value. -/
def jsFalsy : Value → Bool
  | .vNull => true
  | .vBool b => !b
  | .vNum q => q = 0
  | .vStr s => s.isEmpty
  | .vList _ => false
  | .vObj _ => false


/-- The per-run execution context (`ExecutionContext` in types/index.ts):
derived time `variables`, the mutable `results` map (a key may be present
holding JS `undefined`, modelled as `none` — a skipped step's declared
output is stored that way), and the config/bounds/rules/channel documents
visible to variable resolution. -/
structure Ctx where
  vars : List (String × Value)
  results : List (String × Option Value)
  configV : Value
  boundsV : Value
  rulesV : Value
  channel : Option Value

/-- JS `String.prototype.split(sep)` for a single-character separator,
over char lists (`''.split(sep)` gives `[""]`, as in JS). -/
def splitOnChar (sep : Char) : List Char → List (List Char)
  | [] => [[]]
  | c :: rest =>
    if c = sep then [] :: splitOnChar sep rest
    else match splitOnChar sep rest with
      | [] => [[c]]
      | w :: ws => (c :: w) :: ws

/-- `path.split('.')` as strings. -/
def splitDots (path : String) : List String :=
  (splitOnChar '.' path.data).map String.mk

/-- Canonical numeric-string index (JS array indexing `arr[k]` uses the
canonical decimal form: no leading zeros except `"0"` itself). -/
def strToNat? (s : String) : Option Nat :=
  if s.data ≠ [] ∧ s.data.all (fun c => '0' ≤ c ∧ c ≤ '9') ∧
      (s.data.head? = some '0' → s.data = ['0']) then
    some (s.data.foldl (fun n c => n * 10 + (c.val.toNat - 48)) 0)
  else none

/-- Property access `current[part]` on a value: object field, or numeric
index into an array. Other JS property reads (e.g. `length` of a string)
return `undefined` and are not modelled further. -/
def valueGet (v : Value) (k : String) : Option Value :=
  match v with
  | .vObj fs => fs.lookup k
  | .vList xs => match strToNat? k with
    | some i => xs.get? i
    | none => none
  | _ => none

/-- Root lookup on the spread object
`{...variables, ...results, config, bounds, rules, channel}` (pipeline-runner
lines 715-722). Later spreads win: the four document keys shadow
`results`, which shadows `variables`. `withDocs = false` gives the smaller
`{...variables, ...results}` object used by `executeAction`. -/
def rootLookup (ctx : Ctx) (withDocs : Bool) (k : String) : Option Value :=
  if withDocs = true ∧ k = "config" then some ctx.configV
  else if withDocs = true ∧ k = "bounds" then some ctx.boundsV
  else if withDocs = true ∧ k = "rules" then some ctx.rulesV
  else if withDocs = true ∧ k = "channel" then ctx.channel
  else match ctx.results.lookup k with
    | some ov => ov
    | none => ctx.vars.lookup k

/-- The dotted-path walk shared by `getNestedValue` (config-loader lines
604-620) and `getValueFromContext` (pipeline-runner lines 710-732):
`null`/`undefined` and non-object intermediates yield `undefined`. -/
def walkValue : Value → List String → Option Value
  | v, [] => some v
  | v, k :: ks =>
    match valueGet v k with
    | some v' => walkValue v' ks
    | none => none

/-- Dotted-path lookup over the merged context object. -/
def mergedGet (ctx : Ctx) (withDocs : Bool) (path : String) : Option Value :=
  match splitDots path with
  | [] => none
  | root :: rest =>
    match rootLookup ctx withDocs root with
    | some v => walkValue v rest
    | none => none

/-- `path.replace(/^\$\{/, '').replace(/\}$/, '')` — the wrapper strip of
`getValueFromContext`. -/
def cleanPath (path : String) : String :=
  let l := path.data
  let l1 := if "$\x7b".data.isPrefixOf l then l.drop 2 else l
  let l2 := if l1.getLast? = some '\x7d' then l1.dropLast else l1
  String.mk l2

/-- `getValueFromContext(path, context)` (pipeline-runner lines 710-732). -/
def getValueFromContext (path : String) (ctx : Ctx) : Option Value :=
  mergedGet ctx true (cleanPath path)

/-- The leftmost-greedy scan of `template.replace(/\$\{([^}]+)\{?/g, ...)`
style templates: each `${inner}` occurrence (`inner` non-empty, free of
closing braces) is replaced by `repl inner`; everything else is copied.
An unterminated `${` can never be part of a later match (a later match
would need a closing brace that does not exist), so the remainder is
copied verbatim, exactly as the JS regex engine leaves it. -/
def scanTemplate (repl : String → String) : List Char → List Char
  | [] => []
  | '$' :: '\x7b' :: rest =>
    (match h : rest.dropWhile (fun c => c ≠ '\x7d') with
     | '\x7d' :: tail =>
       if (rest.takeWhile (fun c => c ≠ '\x7d')).isEmpty then
         '$' :: scanTemplate repl ('\x7b' :: rest)
       else
         (repl (String.mk (rest.takeWhile (fun c => c ≠ '\x7d')))).data ++
           scanTemplate repl tail
     | _ => '$' :: '\x7b' :: rest)
  | c :: rest => c :: scanTemplate repl rest
termination_by l => l.length
decreasing_by
  all_goals simp only [List.length_cons]
  · omega
  · have h1 : ('\x7d' :: tail).length ≤ rest.length := by
      rw [← h]
      exact lenDropWhileLe _ _
    simp only [List.length_cons] at h1
    omega
  · omega


/-- Start of a JS identifier per the evaluator's regex
`[a-zA-Z_][a-zA-Z0-9_.]*`. -/
def isIdentStart (c : Char) : Bool :=
  ('a' ≤ c ∧ c ≤ 'z') ∨ ('A' ≤ c ∧ c ≤ 'Z') ∨ c = '_'

/-- Continuation of such an identifier (letters, digits, underscore,
dot). -/
def isIdentCont (c : Char) : Bool :=
  isIdentStart c ∨ ('0' ≤ c ∧ c ≤ '9') ∨ c = '.' 

/-- The bare-identifier pass of the condition evaluator:
`replace(/([a-zA-Z_][a-zA-Z0-9_.]*)/g, ...)` — every maximal identifier
token is replaced by `repl token`. -/
def scanIdent (repl : String → String) : List Char → List Char
  | [] => []
  | c :: rest =>
    if isIdentStart c then
      (repl (String.mk (c :: rest.takeWhile isIdentCont))).data ++
        scanIdent repl (rest.dropWhile isIdentCont)
    else c :: scanIdent repl rest
termination_by l => l.length
decreasing_by
  all_goals simp only [List.length_cons]
  · have h1 := lenDropWhileLe isIdentCont rest
    omega
  · omega


/-- The `$\x7b...\x7d` replacement of `evaluateCondition` (pipeline-runner lines
685-688): `JSON.stringify` of the resolved value; an `undefined` resolution
makes `JSON.stringify` return JS `undefined`, which `replace` coerces to
the string `"undefined"`. -/
def jsonReplacement (ctx : Ctx) (path : String) : String :=
  match getValueFromContext path ctx with
  | some v => jsonStr v
  | none => "undefined"

/-- The bare-identifier replacement of `evaluateCondition` (lines 691-700):
the literals `true/false/null/undefined` are kept, resolvable identifiers
are serialized, anything else is kept verbatim. -/
def identReplacement (ctx : Ctx) (m : String) : String :=
  if m = "true" ∨ m = "false" ∨ m = "null" ∨ m = "undefined" then m
  else match getValueFromContext m ctx with
    | some v => jsonStr v
    | none => m

/-- The full substitution performed by `evaluateCondition`: first the
`$\x7b...\x7d` pass, then the bare-identifier pass. -/
def substCondition (cond : String) (ctx : Ctx) : String :=
  String.mk (scanIdent (identReplacement ctx)
    (scanTemplate (jsonReplacement ctx) cond.data))

/-- `evaluateCondition(condition, context)` (pipeline-runner lines
676-708): substitute, then return `Boolean(withContext)` — the truthiness
of the substituted *string*. The surrounding `try/catch` cannot fire in
the model (no modelled operation throws). -/
def evaluateCondition (cond : String) (ctx : Ctx) : Bool :=
  !(substCondition cond ctx).isEmpty

/-- `resolveVariable(template, context)` (config-loader lines 571-579)
against the full merged step context: `$\x7bpath\x7d` becomes `String(value)`,
and an unresolved path is left as the literal `$\x7bpath\x7d` token. -/
def resolveVariable (template : String) (ctx : Ctx) : String :=
  String.mk (scanTemplate (fun path =>
    match mergedGet ctx true path with
    | some v => jsToString v
    | none => "$\x7b" ++ path ++ "\x7d") template.data)

/-- The same resolver against the handler context
`\x7b...variables, ...results\x7d` used by `executeAction` (pipeline-runner lines
651-663). -/
def resolveSmallVariable (template : String) (ctx : Ctx) : String :=
  String.mk (scanTemplate (fun path =>
    match mergedGet ctx false path with
    | some v => jsToString v
    | none => "$\x7b" ++ path ++ "\x7d") template.data)

/-! ## Pipeline executor (`src/core/pipeline-runner.ts`) -/

/-- `on_fail` policy record (`OnFailAction` in types/index.ts; the runner
reads `action` and `max_retries`). -/
structure OnFailAction where
  action : String
  max_retries : Option Nat
deriving DecidableEq, Repr

/-- `enabled?: string | boolean` of a step. -/
inductive BoolOrStr where
  | bool (b : Bool)
  | str (s : String)
deriving DecidableEq, Repr

/-- `PipelineStep` (types/index.ts lines 425-441): one polymorphic record;
which executable field is populated decides the dispatch. The unused
`script`/`on_empty` fields are never read by the runner and are not
modelled. -/
inductive PStep where
  | mk (name : String) (action : Option String) (service : Option String)
      (query : Option String) (input : Option String) (output : Option String)
      (params : Option (List (String × Value))) (condition : Option String)
      (enabled : Option BoolOrStr) (on_fail : Option OnFailAction)
      (for_each : Option String) (max_iterations : Option Nat)
      (steps : Option (List PStep))

def PStep.name : PStep → String
  | .mk n _ _ _ _ _ _ _ _ _ _ _ _ => n
def PStep.action : PStep → Option String
  | .mk _ a _ _ _ _ _ _ _ _ _ _ _ => a
def PStep.service : PStep → Option String
  | .mk _ _ sv _ _ _ _ _ _ _ _ _ _ => sv
def PStep.query : PStep → Option String
  | .mk _ _ _ q _ _ _ _ _ _ _ _ _ => q
def PStep.input : PStep → Option String
  | .mk _ _ _ _ i _ _ _ _ _ _ _ _ => i
def PStep.output : PStep → Option String
  | .mk _ _ _ _ _ o _ _ _ _ _ _ _ => o
def PStep.params : PStep → Option (List (String × Value))
  | .mk _ _ _ _ _ _ p _ _ _ _ _ _ => p
def PStep.condition : PStep → Option String
  | .mk _ _ _ _ _ _ _ c _ _ _ _ _ => c
def PStep.enabled : PStep → Option BoolOrStr
  | .mk _ _ _ _ _ _ _ _ e _ _ _ _ => e
def PStep.on_fail : PStep → Option OnFailAction
  | .mk _ _ _ _ _ _ _ _ _ f _ _ _ => f
def PStep.for_each : PStep → Option String
  | .mk _ _ _ _ _ _ _ _ _ _ fe _ _ => fe
def PStep.max_iterations : PStep → Option Nat
  | .mk _ _ _ _ _ _ _ _ _ _ _ m _ => m
def PStep.steps : PStep → Option (List PStep)
  | .mk _ _ _ _ _ _ _ _ _ _ _ _ ss => ss

mutual
/-- Structural depth of a step (termination measure for the executor;
independent of the strings a resolution pass may rewrite). -/
def stepDepth : PStep → Nat
  | .mk _ _ _ _ _ _ _ _ _ _ _ _ steps => 2 + stepsOptDepth steps

def stepsOptDepth : Option (List PStep) → Nat
  | none => 0
  | some l => stepsListDepth l

def stepsListDepth : List PStep → Nat
  | [] => 0
  | s :: ss => stepDepth s + stepsListDepth ss
end

mutual
/-- `resolveVariables` (config-loader lines 581-602) over a context value:
strings are template-resolved, sequences and keyed structures recursed,
scalars untouched. -/
def resolveValue (ctx : Ctx) : Value → Value
  | .vStr s => .vStr (resolveVariable s ctx)
  | .vList xs => .vList (resolveValueList ctx xs)
  | .vObj fs => .vObj (resolveFields ctx fs)
  | .vNull => .vNull
  | .vBool b => .vBool b
  | .vNum q => .vNum q

def resolveValueList (ctx : Ctx) : List Value → List Value
  | [] => []
  | v :: vs => resolveValue ctx v :: resolveValueList ctx vs

def resolveFields (ctx : Ctx) : List (String × Value) → List (String × Value)
  | [] => []
  | (k, v) :: fs => (k, resolveValue ctx v) :: resolveFields ctx fs
end

mutual
/-- `resolveVariables(step, merged)` (pipeline-runner lines 322-329):
every string field of the step record is template-resolved against the
full merged context, recursing through `params`, `on_fail`, `enabled`
and the nested `steps` of a `for_each`. -/
def resolveStep (ctx : Ctx) : PStep → PStep
  | .mk name action service query input output params condition enabled
      on_fail for_each max_iterations steps =>
    .mk (resolveVariable name ctx)
      (action.map fun a => resolveVariable a ctx)
      (service.map fun a => resolveVariable a ctx)
      (query.map fun a => resolveVariable a ctx)
      (input.map fun a => resolveVariable a ctx)
      (output.map fun a => resolveVariable a ctx)
      (match params with
       | none => none
       | some ps => some (resolveFields ctx ps))
      (condition.map fun a => resolveVariable a ctx)
      (enabled.map fun e => match e with
        | .bool b => .bool b
        | .str s => .str (resolveVariable s ctx))
      (on_fail.map fun of => ⟨resolveVariable of.action ctx, of.max_retries⟩)
      (for_each.map fun a => resolveVariable a ctx)
      max_iterations
      (match steps with
       | none => none
       | some l => some (resolveStepList ctx l))

def resolveStepList (ctx : Ctx) : List PStep → List PStep
  | [] => []
  | s :: ss => resolveStep ctx s :: resolveStepList ctx ss
end

theorem stepDepth_pos (s : PStep) : 2 ≤ stepDepth s := by
  cases s
  simp [stepDepth]

theorem resolveStep_depth (ctx : Ctx) :
    ∀ n, (∀ s : PStep, stepDepth s ≤ n →
        stepDepth (resolveStep ctx s) = stepDepth s) ∧
      (∀ l : List PStep, stepsListDepth l ≤ n →
        stepsListDepth (resolveStepList ctx l) = stepsListDepth l) := by
  intro n
  induction n using Nat.strong_induction_on with
  | _ n ih =>
    have hstep : ∀ s : PStep, stepDepth s ≤ n →
        stepDepth (resolveStep ctx s) = stepDepth s := by
      intro s hs
      cases s with
      | mk name action service query input output params condition enabled
          on_fail for_each max_iterations steps =>
        cases steps with
        | none => simp [resolveStep, stepDepth, stepsOptDepth]
        | some l =>
          simp only [resolveStep, stepDepth, stepsOptDepth]
          simp only [stepDepth, stepsOptDepth] at hs
          have hn : 2 ≤ n := le_trans (by omega) hs
          have hl : stepsListDepth l ≤ n - 2 := by omega
          have := (ih (n - 2) (by omega)).2 l hl
          omega
    refine ⟨hstep, ?_⟩
    intro l hl
    induction l with
    | nil => simp [resolveStepList]
    | cons s ss ihl =>
      simp only [resolveStepList, stepsListDepth] at hl ⊢
      have h1 := hstep s (by have := stepDepth_pos s; omega)
      have h2 := ihl (by omega)
      omega

theorem resolveStep_stepsDepth (ctx : Ctx) (s : PStep) :
    stepsOptDepth (resolveStep ctx s).steps + 2 = stepDepth s := by
  cases s with
  | mk name action service query input output params condition enabled
      on_fail for_each max_iterations steps =>
    cases steps with
    | none => simp [resolveStep, PStep.steps, stepsOptDepth, stepDepth]
    | some l =>
      simp only [resolveStep, PStep.steps, stepsOptDepth, stepDepth]
      have := (resolveStep_depth ctx (stepsListDepth l)).2 l le_rfl
      omega



/-- `StepResult` (types/index.ts lines 664-670); an absent `skipped` flag
is `false`. -/
structure StepResult where
  success : Bool
  output : Option Value
  error : Option String
  skipped : Bool
  skipReason : Option String
deriving Repr

/-- Mutable collaborator state threaded through a run: the storage queue
and the observable effect traces (notifications sent, log lines written,
warnings, sleeps). Collaborator calls are modelled as total (no modelled
operation throws; the `try/catch` of `executeStep` therefore never
fires — see §7 of the design, which scopes exceptions to external
collaborators). -/
structure Env where
  queue : List Value
  notifications : List String
  logs : List String
  warnings : List String
  sleeps : List Nat
deriving Repr

/-- Read-only collaborator snapshot for one run: loaded documents, the
rule/bounds snapshots for the timing check, channel configs, the
similarity validator's config and corpus reader, the tone-adapter
service, the approval collaborator's reply, and the wall-clock reading
(`new Date()` values, fixed for the run). -/
structure Collab where
  config : Value
  boundsDoc : Value
  rulesDoc : Value
  boundsQ : BoundsQ
  rules : RulesState
  loadChannel : String → Option Value
  validatorThreshold : Option ℚ
  dbPosts : String → List String
  toneAdapt : String → String → Option ℚ → Bool × String
  approvalResult : Value
  hour : Nat
  minute : Nat
  weekday : String
  dateStr : String
  timestampStr : String

/-- `RunOptions` of the orchestrator (pipeline-runner lines 51-56). -/
structure RunOptions where
  force : Bool
  dryRun : Bool
  channel : Option String
  verbose : Bool
deriving DecidableEq, Repr

/-- `message` resolution of `telegram_send`/`log`:
`step.params?.message as string || step.input || ''` (JS `||` on the
falsy values; a truthy non-string message value is carried through
`String(...)` coercion here, where the source would pass the raw value to
the collaborator). -/
def msgOf (step : PStep) : String :=
  match step.params.bind fun ps => ps.lookup "message" with
  | some v => if jsFalsy v then step.input.getD "" else jsToString v
  | none => step.input.getD ""

/-- `duration` resolution of `wait`:
`step.params?.duration as string || '1s'`. -/
def durationOf (step : PStep) : String :=
  match step.params.bind fun ps => ps.lookup "duration" with
  | some v =>
    if jsFalsy v then "1s"
    else match v with
      | .vStr s => s
      | v => jsToString v
  | none => "1s"

/-- `step.params?.target_length as number` for the tone service. -/
def targetLen (step : PStep) : Option ℚ :=
  match step.params.bind fun ps => ps.lookup "target_length" with
  | some (.vNum q) => some q
  | _ => none

/-- `context.channel?.id` (a non-string `id` behaves as absent). -/
def channelId (ctx : Ctx) : Option String :=
  ctx.channel.bind fun ch =>
    match valueGet ch "id" with
    | some (.vStr s) => some s
    | _ => none

/-- Digits of a decimal prefix, as `parseInt` reads them. -/
def digitsToNat (l : List Char) : Nat :=
  l.foldl (fun n c => n * 10 + (c.val.toNat - 48)) 0

/-- `parseDuration` (pipeline-runner lines 734-752): `<int><unit>` with
unit `s`/`m`/`h` (default `s`); anything else is 1000 ms. -/
def parseDuration (duration : String) : Nat :=
  let ds := duration.data.takeWhile fun c => '0' ≤ c ∧ c ≤ '9'
  let rest := duration.data.dropWhile fun c => '0' ≤ c ∧ c ≤ '9'
  if ds.isEmpty then 1000
  else match rest with
    | [] => digitsToNat ds * 1000
    | ['s'] => digitsToNat ds * 1000
    | ['m'] => digitsToNat ds * 60000
    | ['h'] => digitsToNat ds * 3600000
    | _ => 1000

/-- `executeBuiltinAction` (pipeline-runner lines 382-450), dispatching on
the resolved `action` name. `queue_pop` reads the storage queue (channel
scoping lives inside the storage collaborator and is not modelled);
`channel.post` never contacts a publisher in this source — the non-dry
branch returns a placeholder id; `db_insert` writes nothing. -/
def executeBuiltinAction (opts : RunOptions) (action : String)
    (step : PStep) (env : Env) : StepResult × Env :=
  if action = "queue_pop" ∨ action = "queue.pop" then
    match env.queue with
    | [] => (⟨true, none, none, true, some "Queue is empty"⟩, env)
    | item :: rest =>
      (⟨true, some item, none, false, none⟩, { env with queue := rest })
  else if action = "channel.post" then
    if opts.dryRun then
      (⟨true, some (.vObj [("post_id", .vStr "dry-run-id")]), none, false,
          none⟩,
        { env with logs := env.logs ++ ["[DRY RUN] Would post to channel"] })
    else
      (⟨true, some (.vObj [("post_id", .vStr "placeholder")]), none, false,
          none⟩, env)
  else if action = "db_insert" then
    if opts.dryRun then
      (⟨true, none, none, false, none⟩,
        { env with logs := env.logs ++ ["[DRY RUN] Would insert into database"] })
    else (⟨true, none, none, false, none⟩, env)
  else if action = "telegram_send" ∨ action = "telegram.send" then
    if opts.dryRun then
      (⟨true, none, none, false, none⟩,
        { env with logs := env.logs ++
          ["[DRY RUN] Would send Telegram: " ++ msgOf step] })
    else
      (⟨true, none, none, false, none⟩,
        { env with notifications := env.notifications ++ [msgOf step] })
  else if action = "log" then
    (⟨true, none, none, false, none⟩,
      { env with logs := env.logs ++ [msgOf step] })
  else if action = "wait" then
    (⟨true, none, none, false, none⟩,
      { env with sleeps := env.sleeps ++ [parseDuration (durationOf step)] })
  else
    (⟨true, some .vNull, none, false, none⟩,
      { env with warnings := env.warnings ++ ["Unknown action: " ++ action] })

/-- `parts.slice(2).join('/')`. -/
def joinSlash : List String → String
  | [] => ""
  | [s] => s
  | s :: ss => s ++ "/" ++ joinSlash ss

/-- The fraction-percent string of the similarity denial message
(`(x * 100).toFixed(1)` in JS; rational rendering here, never inspected by
a claim). -/
def pctStr (q : ℚ) : String := numStr (q * 100)

/-- `executeService` (pipeline-runner lines 456-527): `shared/<category>/<id>`
routing to the tone / validator / approval / transformer services. The
input is read from the context by *path* (the already-resolved `input`
string is used as a lookup path — resolution usually leaves it `undefined`
unless the template failed to resolve). -/
def executeService (co : Collab) (servicePath : String)
    (step : PStep) (ctx : Ctx) (env : Env) : StepResult × Env :=
  let input : Option Value :=
    match step.input with
    | some i => if i = "" then none else getValueFromContext i ctx
    | none => none
  let inputStr : String :=
    match input with
    | some (.vStr s) => s
    | some v => jsToString v
    | none => "undefined"
  let parts := (splitOnChar '/' servicePath.data).map String.mk
  if parts.head? = some "shared" then
    let category := ((parts.drop 1).head?).getD "undefined"
    let serviceId := joinSlash (parts.drop 2)
    if category = "tone" then
      let tr := co.toneAdapt serviceId inputStr (targetLen step)
      (⟨tr.1, some (.vStr tr.2), none, false, none⟩, env)
    else if category = "validator" then
      if serviceId = "similarity" then
        let result := checkSimilarity co.validatorThreshold co.dbPosts
          inputStr ⟨none, channelId ctx, none⟩
        if result.isSimilar then
          (⟨false, none, some ("Similar content found: " ++
              pctStr result.highestSimilarity ++ "%"), false, none⟩, env)
        else
          (⟨true, some (.vObj
              [("isSimilar", .vBool result.isSimilar),
               ("highestSimilarity", .vNum result.highestSimilarity),
               ("threshold", .vNum result.threshold)]), none, false, none⟩,
            env)
      else (⟨true, none, none, false, none⟩, env)
    else if category = "approval" then
      if serviceId = "telegram" then
        (⟨true, some co.approvalResult, none, false, none⟩,
          { env with notifications := env.notifications ++
            ["approval-request:" ++ inputStr] })
      else (⟨true, none, none, false, none⟩, env)
    else if category = "transformer" then
      (⟨true, input, none, false, none⟩, env)
    else
      (⟨false, none, some ("Unknown service category: " ++ category), false,
        none⟩, env)
  else
    (⟨false, none, some ("Unknown service: " ++ servicePath), false, none⟩,
      env)



mutual
/-- `executeStep` (pipeline-runner lines 289-376): condition gate, enabled
gate, full variable resolution of the step record, then dispatch on the
populated executable field. The `catch` branch of the source handles only
exceptions thrown by collaborators, which are total in this model, so the
`on_fail: skip`/`rephrase` conversions of thrown errors are unreachable
here. A `for_each` whose expression has fewer than three space-separated
tokens makes the source throw a `TypeError` (resolving `undefined`); the
model returns the not-an-array failure for it. -/
def executeStep (co : Collab) (opts : RunOptions) (s : PStep) (ctx : Ctx)
    (env : Env) : StepResult × Env :=
  if (match s.condition with
      | some c => !(evaluateCondition c ctx)
      | none => false) then
    (⟨true, none, none, true,
      some ("Condition not met: " ++ s.condition.getD "")⟩, env)
  else if (match s.enabled with
      | some (.str e) => !(evaluateCondition e ctx)
      | some (.bool b) => !b
      | none => false) then
    (⟨true, none, none, true, some "Step disabled"⟩, env)
  else
    let rs := resolveStep ctx s
    match rs.action with
    | some a => executeBuiltinAction opts a rs env
    | none =>
      match rs.service with
      | some sv => executeService co sv rs ctx env
      | none =>
        match rs.query with
        | some _ =>
          -- `executeQuery` is a placeholder in the source: success, `[]`.
          (⟨true, some (.vList []), none, false, none⟩, env)
        | none =>
          match rs.for_each with
          | some fe =>
            let parts := (splitOnChar ' ' fe.data).map String.mk
            let sourceName := (parts.get? 2).getD "undefined"
            (match getValueFromContext sourceName ctx with
             | some (.vList items) =>
               let maxIter := rs.max_iterations.getD items.length
               let ss := rs.steps.getD []
               let varName := (parts.get? 0).getD ""
               let lp := forEachLoop co opts ss varName ctx
                 (items.take maxIter) env
               (⟨true, some (.vList lp.1), none, false, none⟩, lp.2)
             | _ =>
               (⟨false, none, some "for_each source is not an array", false,
                 none⟩, env))
          | none =>
            (⟨false, none, some ("Unknown step type for: " ++ s.name), false,
              none⟩, env)
termination_by (stepDepth s, 0)
decreasing_by
  have h := resolveStep_stepsDepth ctx s
  have h2 : stepsListDepth ((resolveStep ctx s).steps.getD []) ≤
      stepsOptDepth (resolveStep ctx s).steps := by
    cases hss : (resolveStep ctx s).steps <;>
      simp [stepsOptDepth, stepsListDepth, hss]
  apply Prod.Lex.left
  omega

/-- The nested-steps pass of one `for_each` iteration (pipeline-runner
lines 571-578): each sub-step runs for its side effects; results are
discarded. -/
def runSubSteps (co : Collab) (opts : RunOptions) (ss : List PStep)
    (ctx : Ctx) (env : Env) : Env :=
  match ss with
  | [] => env
  | s :: rest =>
    let r := executeStep co opts s ctx env
    runSubSteps co opts rest ctx r.2
termination_by (stepsListDepth ss + 1, 0)
decreasing_by
  · apply Prod.Lex.left
    have := stepDepth_pos s
    simp only [stepsListDepth]
    omega
  · apply Prod.Lex.left
    have := stepDepth_pos s
    simp only [stepsListDepth]
    omega

/-- The iteration loop of `executeForEach` (lines 561-581): per item, a
shadow context binds the loop variable, the nested steps run, and the item
is collected. -/
def forEachLoop (co : Collab) (opts : RunOptions) (ss : List PStep)
    (varName : String) (ctx : Ctx) (items : List Value) (env : Env) :
    List Value × Env :=
  match items with
  | [] => ([], env)
  | item :: rest =>
    let itemCtx := { ctx with vars := (varName, item) :: ctx.vars }
    let env' := runSubSteps co opts ss itemCtx env
    let lp := forEachLoop co opts ss varName ctx rest env'
    (item :: lp.1, lp.2)
termination_by (stepsListDepth ss + 1, items.length + 1)
decreasing_by
  · apply Prod.Lex.right
    omega
  · apply Prod.Lex.right
    simp only [List.length_cons]
    omega
end



/-- JS object key assignment `m[k] = v`: overwrite the existing key or
append. -/
def upsert {α : Type} (k : String) (v : α) :
    List (String × α) → List (String × α)
  | [] => [(k, v)]
  | (k', v') :: rest =>
    if k' = k then (k', v) :: rest else (k', v') :: upsert k v rest

/-- The error string pushed for an `on_fail: continue` step
(`Step $\x7bstep.name\x7d: $\x7bstepResult.error\x7d`; an absent error prints
`undefined`). -/
def stepErrMsg (s : PStep) (r : StepResult) : String :=
  "Step " ++ s.name ++ ": " ++ r.error.getD "undefined"

/-- The thrown message of a non-continue failing step
(`stepResult.error || `Step $\x7bstep.name\x7d failed``). -/
def thrownMsg (s : PStep) (r : StepResult) : String :=
  match r.error with
  | some e => if e = "" then "Step " ++ s.name ++ " failed" else e
  | none => "Step " ++ s.name ++ " failed"

/-- Accumulated state of the sequential steps loop (pipeline-runner lines
111-137): steps executed, the named `results` map, the `continue`-recorded
errors in encounter order, the thrown error if the loop aborted, and the
final context and collaborator state. -/
structure StepsOutcome where
  stepsExecuted : Nat
  results : List (String × Option Value)
  errors : List String
  thrown : Option String
  ctx : Ctx
  env : Env

/-- `if (step.output) context.results[step.output] = stepResult.output`
(also performed for skipped steps, storing JS `undefined`). -/
def storeOutput (s : PStep) (r : StepResult) (ctx : Ctx) : Ctx :=
  match s.output with
  | some o => { ctx with results := upsert o r.output ctx.results }
  | none => ctx

/-- The same assignment on the local `results` map. -/
def storeOutputAcc (s : PStep) (r : StepResult)
    (acc : List (String × Option Value)) : List (String × Option Value) :=
  match s.output with
  | some o => upsert o r.output acc
  | none => acc

/-- The sequential steps loop: per step, execute, store the declared
output (even for skipped steps, as JS `undefined`), count it, then apply
the failure policy — `continue` records the error and proceeds, anything
else throws. -/
def runSteps (co : Collab) (opts : RunOptions) :
    List PStep → Ctx → List (String × Option Value) → Env → StepsOutcome
  | [], ctx, acc, env => ⟨0, acc, [], none, ctx, env⟩
  | s :: rest, ctx, acc, env =>
    let re := executeStep co opts s ctx env
    let r := re.1
    let ctx' := storeOutput s r ctx
    let acc' := storeOutputAcc s r acc
    if r.success = false ∧ r.skipped = false then
      if s.on_fail.map OnFailAction.action = some "continue" then
        let o := runSteps co opts rest ctx' acc' re.2
        ⟨o.stepsExecuted + 1, o.results, stepErrMsg s r :: o.errors,
          o.thrown, o.ctx, o.env⟩
      else ⟨1, acc', [], some (thrownMsg s r), ctx', re.2⟩
    else
      let o := runSteps co opts rest ctx' acc' re.2
      ⟨o.stepsExecuted + 1, o.results, o.errors, o.thrown, o.ctx, o.env⟩

/-- One `on_complete`/`on_error` handler (`PipelineAction` in
types/index.ts; the fields `executeAction` reads). -/
structure HandlerAction where
  condition : Option String
  action : String
  message : Option String
  log : Option String
deriving DecidableEq, Repr

/-- `action.message || action.log || ''` (JS `||`: empty strings fall
through). -/
def firstTruthyStr (a b : Option String) : String :=
  match a with
  | some s => if s = "" then (b.getD "") else s
  | none => b.getD ""

/-- `executeAction` (pipeline-runner lines 637-670): condition-gated
dispatch of a handler action; `log` writes the resolved message to the
run log, `notify` sends it through the notifier, `metric` and unknown
actions do nothing. Resolution uses the handler context
`\x7b...variables, ...results\x7d`. -/
def executeAction (ctx : Ctx) (a : HandlerAction) (env : Env) : Env :=
  if (match a.condition with
      | some c => !(evaluateCondition c ctx)
      | none => false) then env
  else if a.action = "log" then
    { env with logs := env.logs ++
      [resolveSmallVariable (firstTruthyStr a.message a.log) ctx] }
  else if a.action = "notify" then
    { env with notifications := env.notifications ++
      [resolveSmallVariable (firstTruthyStr a.message none) ctx] }
  else env

/-- The handler loop of `runPipeline`: `for (const action of handlers)
await executeAction(action, context)`. -/
def runHandlers (ctx : Ctx) (handlers : List HandlerAction) (env : Env) :
    Env :=
  handlers.foldl (fun e a => executeAction ctx a e) env

/-- `PipelineTask` of a phase (types/index.ts lines 452-459). -/
structure PTask where
  action : String
  input : Option String
  params : Option (List (String × Value))
  output : Option String

/-- Task → step conversion of `executePhase` (pipeline-runner lines
610-617). -/
def taskToStep (t : PTask) : PStep :=
  .mk t.action (some t.action) none none t.input t.output t.params none none
    none none none none

/-- `PipelinePhase` fields read by the executor. -/
structure PPhase where
  name : String
  condition : Option String
  tasks : List PTask

/-- The task loop of `executePhase` (lines 607-624): every task is
counted, failures accumulate errors, and — unlike the steps loop — no
task output is ever stored into the context. -/
def runPhaseTasks (co : Collab) (opts : RunOptions) :
    List PTask → Ctx → Env → Nat × List String × Env
  | [], _, env => (0, [], env)
  | t :: ts, ctx, env =>
    let re := executeStep co opts (taskToStep t) ctx env
    let rec_ := runPhaseTasks co opts ts ctx re.2
    (rec_.1 + 1,
      (if re.1.success = false ∧ re.1.skipped = false then
        [match re.1.error with
         | some e => if e = "" then "Task " ++ t.action ++ " failed" else e
         | none => "Task " ++ t.action ++ " failed"]
       else []) ++ rec_.2.1,
      rec_.2.2)

/-- Result of one phase (pipeline-runner line 594). -/
structure PhaseOutcome where
  success : Bool
  tasksExecuted : Nat
  errors : List String
deriving Repr

/-- `executePhase` (lines 590-631): phase condition gate, then the task
loop; phase success means no accumulated errors. -/
def executePhase (co : Collab) (opts : RunOptions) (phase : PPhase)
    (ctx : Ctx) (env : Env) : PhaseOutcome × Env :=
  if (match phase.condition with
      | some c => !(evaluateCondition c ctx)
      | none => false) then
    (⟨true, 0, []⟩, env)
  else
    let r := runPhaseTasks co opts phase.tasks ctx env
    (⟨r.2.1.isEmpty, r.1, r.2.1⟩, r.2.2)

/-- The phase result object stored under `results[phase.name]`. -/
def phaseValue (p : PhaseOutcome) : Value :=
  .vObj [("success", .vBool p.success),
         ("tasksExecuted", .vNum p.tasksExecuted),
         ("errors", .vList (p.errors.map Value.vStr))]

/-- The phases loop of `runPipeline` (lines 138-153): results are stored
under the phase name (in the local results map only), failed phases
contribute their errors, execution never aborts. -/
def runPhases (co : Collab) (opts : RunOptions) :
    List PPhase → Ctx → List (String × Option Value) → Env →
      Nat × List (String × Option Value) × List String × Env
  | [], _, acc, env => (0, acc, [], env)
  | p :: ps, ctx, acc, env =>
    let pr := executePhase co opts p ctx env
    let acc' := upsert p.name (some (phaseValue pr.1)) acc
    let rest := runPhases co opts ps ctx acc' pr.2
    (pr.1.tasksExecuted + rest.1, rest.2.1,
      (if pr.1.success then [] else pr.1.errors) ++ rest.2.2.1,
      rest.2.2.2)



/-- `time_range` of pipeline conditions (`start`/`end` as `"HH:MM"`). -/
structure TimeRange where
  start : String
  endT : String
deriving DecidableEq, Repr

/-- `timing_check` of pipeline conditions (fields read by
`checkConditions`). -/
structure TimingCheckRef where
  use_rules : Bool
  confidence_threshold : Option ℚ
deriving DecidableEq, Repr

/-- `PipelineConditions` (types/index.ts lines 407-411; `system_checks`
is never read by the runner). -/
structure PipelineConditions where
  time_range : Option TimeRange
  timing_check : Option TimingCheckRef
deriving DecidableEq, Repr

/-- `"HH:MM".split(':').map(Number)` folded as `h * 100 + m`; the strings
are assumed well-formed clock times (malformed ones produce JS `NaN`
comparisons, not modelled). -/
def clockVal (s : String) : Nat :=
  match (splitOnChar ':' s.data).map String.mk with
  | [h, m] => digitsToNat h.data * 100 + digitsToNat m.data
  | _ => 0

/-- Outcome of `checkConditions`. -/
structure CondCheck where
  passed : Bool
  reason : Option String
deriving DecidableEq, Repr

/-- `checkConditions` (pipeline-runner lines 243-283): the clock-window
check, then the timing-rules check — which blocks only when the timing
result is not optimal *and* its confidence reaches the pipeline's
threshold (default 0.5). -/
def checkConditions (co : Collab) (conds : PipelineConditions) : CondCheck :=
  let timeFail : Option CondCheck :=
    match conds.time_range with
    | none => none
    | some tr =>
      let currentTime := co.hour * 100 + co.minute
      if currentTime < clockVal tr.start ∨ currentTime > clockVal tr.endT then
        some ⟨false, some ("Outside time range: " ++ tr.start ++ "-" ++
          tr.endT)⟩
      else none
  match timeFail with
  | some r => r
  | none =>
    match conds.timing_check with
    | some tc =>
      if tc.use_rules then
        let timingResult := checkTimingRules co.rules co.boundsQ co.hour
          co.weekday false
        if timingResult.isOptimal = false ∧
            tc.confidence_threshold.getD 0.5 ≤ timingResult.confidence then
          ⟨false, some timingResult.reason⟩
        else ⟨true, none⟩
      else ⟨true, none⟩
    | none => ⟨true, none⟩

/-- The `conditionCheck` object placed into `results` when preconditions
fail. -/
def condCheckValue (cc : CondCheck) : Value :=
  .vObj ([("passed", .vBool cc.passed)] ++
    (match cc.reason with
     | some r => [("reason", .vStr r)]
     | none => []))

/-- `Pipeline` (types/index.ts lines 387-399; fields the runner reads). -/
structure Pipeline where
  id : String
  conditions : Option PipelineConditions
  steps : Option (List PStep)
  phases : Option (List PPhase)
  on_complete : Option (List HandlerAction)
  on_error : Option (List HandlerAction)

/-- `createContext` (pipeline-runner lines 214-237): config/bounds/rules
snapshots plus the derived time variables; the channel config is loaded
when the run names a channel. -/
def createContext (co : Collab) (opts : RunOptions) : Ctx :=
  { vars := [("current_hour", .vNum co.hour),
             ("current_day", .vStr co.weekday),
             ("date", .vStr co.dateStr),
             ("timestamp", .vStr co.timestampStr)],
    results := [],
    configV := co.config,
    boundsV := co.boundsDoc,
    rulesV := co.rulesDoc,
    channel := opts.channel.bind co.loadChannel }

/-- `context.results.error = errorMessage` (pipeline-runner line 191). -/
def errCtx (ctx : Ctx) (e : String) : Ctx :=
  { ctx with results := upsert "error" (some (.vStr e)) ctx.results }

/-- `PipelineResult` (pipeline-runner lines 38-49). The wall-clock
`duration` and the duration part of `stats` are not modelled (time-free
model); `stepResults` keeps the per-key success map the source builds on
the successful path. -/
structure PipelineResult where
  success : Bool
  pipelineId : String
  stepsExecuted : Nat
  results : List (String × Option Value)
  stepResults : Option (List (String × Bool))
  errors : List String
  error : Option String
  failedStep : Option String

/-- The precondition gate of `runPipeline` (pipeline-runner lines 83-99):
skipped entirely under `options.force`; otherwise, when the pipeline
declares `conditions`, the failing `checkConditions` verdict (if any) is
returned and aborts the run. -/
def condFailOf (co : Collab) (opts : RunOptions) (p : Pipeline) :
    Option CondCheck :=
  if opts.force = false then
    match p.conditions with
    | some conds =>
      let cc := checkConditions co conds
      if cc.passed then none else some cc
    | none => none
  else none

/-- `runPipeline` (pipeline-runner lines 62-208). A missing pipeline and
failed preconditions return failed results without running anything; the
steps path may end with a thrown step error, which (and only which)
populates `context.results.error` and dispatches the `on_error` handlers;
every no-throw completion — including one with `continue`-recorded errors
or failed phases — runs the `on_complete` handlers, and its `success` is
`errors.length == 0`. -/
def runPipeline (co : Collab) (pipelineId : String)
    (pipeline? : Option Pipeline) (opts : RunOptions) (env : Env) :
    PipelineResult × Env :=
  match pipeline? with
  | none =>
    (⟨false, pipelineId, 0, [], none,
      ["Pipeline not found: " ++ pipelineId], none, none⟩, env)
  | some pipeline =>
    let ctx := createContext co opts
    match condFailOf co opts pipeline with
    | some cc =>
      (⟨false, pipelineId, 0, [("conditionCheck", some (condCheckValue cc))],
        none, [cc.reason.getD "Conditions not met"], none, none⟩, env)
    | none =>
      match pipeline.steps with
      | some steps =>
        let o := runSteps co opts steps ctx [] env
        match o.thrown with
        | none =>
          let env2 := runHandlers o.ctx (pipeline.on_complete.getD []) o.env
          (⟨o.errors.isEmpty, pipelineId, o.stepsExecuted, o.results,
            some (o.results.map fun kv => (kv.1, true)), o.errors, none,
            none⟩, env2)
        | some e =>
          let ctxE := errCtx o.ctx e
          let env2 := match pipeline.on_error with
            | some handlers => runHandlers ctxE handlers o.env
            | none => o.env
          (⟨false, pipelineId, o.stepsExecuted, o.results, none,
            o.errors ++ [e], some e, some "unknown"⟩, env2)
      | none =>
        match pipeline.phases with
        | some phases =>
          let r := runPhases co opts phases ctx [] env
          let env2 := runHandlers ctx (pipeline.on_complete.getD []) r.2.2.2
          (⟨r.2.2.1.isEmpty, pipelineId, r.1, r.2.1,
            some (r.2.1.map fun kv => (kv.1, true)), r.2.2.1, none, none⟩,
            env2)
        | none =>
          let env2 := runHandlers ctx (pipeline.on_complete.getD []) env
          (⟨true, pipelineId, 0, [], some [], [], none, none⟩, env2)

/-- The two-step pipeline of claim C3: pop a queue item, then post its
content. -/
def c3step1 : PStep :=
  .mk "pop" (some "queue_pop") none none none (some "item") none none none
    none none none none

def c3step2 : PStep :=
  .mk "post" (some "channel.post") none none (some "$\x7bitem.content\x7d")
    none none none none none none none none

def c3pipeline : Pipeline :=
  ⟨"post-queue", none, some [c3step1, c3step2], none, none, none⟩

/-- A collaborator world with an empty queue. -/
def c3collab : Collab :=
  ⟨.vNull, .vNull, .vNull, [], ⟨⟨[], [], [], 0⟩⟩, fun _ => none, none,
    fun _ => [], fun _ c _ => (true, c), .vNull, 9, 0, "Monday",
    "2026-01-01", "2026-01-01T09:00:00Z"⟩

def c3opts : RunOptions := ⟨false, true, none, false⟩

def c3env : Env := ⟨[], [], [], [], []⟩

/-- A failing step (unknown service) with `on_fail: continue`. -/
def c7step : PStep :=
  .mk "bad" none (some "nope") none none none none none none
    (some ⟨"continue", none⟩) none none none

/-- The subsequent step: a `log` builtin. -/
def c7after : PStep :=
  .mk "after" (some "log") none none (some "done") none none none none none
    none none none

def c7pipeline : Pipeline :=
  ⟨"p7", none, some [c7step, c7after], none, none, none⟩

def c7opts : RunOptions := ⟨true, true, none, false⟩

/-- Pipeline whose single step fails under `on_fail: continue`, with both
handler lists present. -/
def c8pipeline : Pipeline :=
  ⟨"p8", none, some [c7step], none,
    some [⟨none, "log", some "CMSG", none⟩],
    some [⟨none, "log", some "EMSG", none⟩]⟩

/-- A step that fails without an `on_fail` policy: its error is thrown. -/
def c8throwStep : PStep :=
  .mk "boom" none (some "nope") none none none none none none none none
    none none

def c8throwPipeline : Pipeline :=
  ⟨"p8w", none, some [c8throwStep], none, none,
    some [⟨none, "log", some "EMSG", none⟩]⟩

/-- A pipeline gated by a clock window the run misses (the collaborator
clock reads 09:00, the window is 10:00–11:00), with both handler lists
present. -/
def c8condPipeline : Pipeline :=
  ⟨"p8c", some ⟨some ⟨"10:00", "11:00"⟩, none⟩, some [c7after], none,
    some [⟨none, "log", some "CMSG", none⟩],
    some [⟨none, "log", some "EMSG", none⟩]⟩

/-- A phases-only pipeline (one phase with one task), with both handler
lists present. -/
def c8phasePipeline : Pipeline :=
  ⟨"p8d", none, none,
    some [⟨"ph", none, [⟨"noop_action", none, none, none⟩]⟩],
    some [⟨none, "log", some "CMSG", none⟩],
    some [⟨none, "log", some "EMSG", none⟩]⟩

/-! ## Theorems -/

/-- C1: for every timing-rules state whose confidence is strictly below
`bounds.evolution.confidence.min_to_apply` (default 0.5), `checkTimingRules`
called with `forceCheck = false` returns `isOptimal = true` regardless of
the current hour, the current weekday, and the contents of
`avoid_days` / `avoid_hours` / `best_hours` (fail-open gating). -/
theorem C1_low_confidence_fail_open (rules : RulesState) (bounds : BoundsQ)
    (hour : Nat) (day : String)
    (h : rules.timing.confidence < minToApply bounds) :
    (checkTimingRules rules bounds hour day false).isOptimal = true := by
  simp [checkTimingRules, h]

/-- Witness for C1 at a concrete state: confidence 0.3 with an empty bounds
document (threshold defaults to 0.5), hour 10 on a Monday that sits in
`avoid_days`, and best/avoid hour lists that would otherwise reject. -/
theorem C1_low_confidence_fail_open_witness :
    (⟨⟨[9], [10], ["Monday"], 0.3⟩⟩ : RulesState).timing.confidence <
        minToApply [] ∧
    (checkTimingRules ⟨⟨[9], [10], ["Monday"], 0.3⟩⟩ [] 10 "Monday"
        false).isOptimal = true := by
  have h : (⟨⟨[9], [10], ["Monday"], 0.3⟩⟩ : RulesState).timing.confidence <
      minToApply [] := by
    norm_num [minToApply, qlookup, List.lookup]
  exact ⟨h, C1_low_confidence_fail_open _ _ _ _ h⟩

/-- C4: when the timing rule's confidence meets `min_to_apply` (or
`forceCheck = true`), `checkTimingRules` applies checks with precedence
`avoid_days` over `avoid_hours` over `best_hours`: a weekday in
`avoid_days` gives `isOptimal = false`; otherwise an hour in `avoid_hours`
gives `isOptimal = false`; otherwise a non-empty `best_hours` makes
`isOptimal` exactly membership of the current hour; and with no rules
defined (empty `best_hours`, no avoid match) the result is
`isOptimal = true`. -/
theorem C4_timing_precedence (rules : RulesState) (bounds : BoundsQ)
    (hour : Nat) (day : String) (forceCheck : Bool)
    (h : ¬(rules.timing.confidence < minToApply bounds ∧ forceCheck = false)) :
    (day ∈ rules.timing.avoid_days →
      (checkTimingRules rules bounds hour day forceCheck).isOptimal = false) ∧
    (day ∉ rules.timing.avoid_days →
      hour ∈ rules.timing.avoid_hours →
      (checkTimingRules rules bounds hour day forceCheck).isOptimal = false) ∧
    (day ∉ rules.timing.avoid_days →
      hour ∉ rules.timing.avoid_hours →
      rules.timing.best_hours ≠ [] →
      (checkTimingRules rules bounds hour day forceCheck).isOptimal =
        decide (hour ∈ rules.timing.best_hours)) ∧
    (day ∉ rules.timing.avoid_days →
      hour ∉ rules.timing.avoid_hours →
      rules.timing.best_hours = [] →
      (checkTimingRules rules bounds hour day forceCheck).isOptimal = true) := by
  simp only [checkTimingRules, if_neg h]
  refine ⟨fun h1 => ?_, fun h1 h2 => ?_, fun h1 h2 h3 => ?_,
    fun h1 h2 h3 => ?_⟩
  · simp [h1]
  · simp [h1, h2]
  · simp [h1, h2, List.length_pos.mpr h3]
  · simp [h1, h2, h3]

/-- Witness for C4 at a concrete state: confidence 0.8 (≥ default 0.5),
Tuesday not avoided, hour 13 avoided, so the second branch fires. -/
theorem C4_timing_precedence_witness :
    ¬((⟨⟨[9], [13], ["Monday"], 0.8⟩⟩ : RulesState).timing.confidence <
        minToApply [] ∧ false = false) ∧
    (checkTimingRules ⟨⟨[9], [13], ["Monday"], 0.8⟩⟩ [] 13 "Tuesday"
        false).isOptimal = false := by
  have h : ¬((⟨⟨[9], [13], ["Monday"], 0.8⟩⟩ : RulesState).timing.confidence <
      minToApply [] ∧ false = false) := by
    norm_num [minToApply, qlookup, List.lookup]
  refine ⟨h, (C4_timing_precedence _ _ 13 "Tuesday" false h).2.1 ?_ ?_⟩ <;>
    decide

/-- C2: `checkDailyLimits(actionType, platform)` compares `count + 1`
against the bounds ceiling for the mapped category/key: with today's count
6 and a bound of 6 for `post`, it returns `allowed = false` and
`remaining = 0`; and every action type with no mapping in the limit map is
allowed with an infinite limit. -/
theorem C2_daily_limits (bounds : BoundsQ) (gp : String → Nat)
    (ga : String → String → Nat) (platform : String)
    (hb : qlookup bounds "sns" "posting" "max_per_day" = some 6)
    (hc : gp platform = 6) :
    (checkDailyLimits bounds gp ga "post" platform).allowed = false ∧
    (checkDailyLimits bounds gp ga "post" platform).remaining = .fin 0 ∧
    ∀ a p, limitMap a = none →
      (checkDailyLimits bounds gp ga a p).allowed = true ∧
      (checkDailyLimits bounds gp ga a p).limit = .inf := by
  simp only [qlookup, Option.bind_eq_some] at hb
  obtain ⟨c, hc1, s, hs1, hk⟩ := hb
  refine ⟨?_, ?_, fun a p hma => ?_⟩
  · simp [checkDailyLimits, limitMap, checkBounds, hc1, hs1, hk, hc]
    norm_num
  · simp [checkDailyLimits, limitMap, checkBounds, hc1, hs1, hk, hc]
    norm_num [XNum.subQ, XNum.max0]
  · simp [checkDailyLimits, hma]

/-- Witness for C2 at a concrete bounds document with
`sns.posting.max_per_day = 6`, a storage oracle reporting 6 posts today,
and the unmapped action type `"dance"`. -/
theorem C2_daily_limits_witness :
    qlookup [("sns", [("posting", [("max_per_day", (6 : ℚ))])])]
        "sns" "posting" "max_per_day" = some 6 ∧
    (fun _ : String => 6) "x" = 6 ∧
    (checkDailyLimits [("sns", [("posting", [("max_per_day", (6 : ℚ))])])]
        (fun _ => 6) (fun _ _ => 0) "post" "x").allowed = false ∧
    (checkDailyLimits [("sns", [("posting", [("max_per_day", (6 : ℚ))])])]
        (fun _ => 6) (fun _ _ => 0) "post" "x").remaining = .fin 0 ∧
    limitMap "dance" = none ∧
    (checkDailyLimits [("sns", [("posting", [("max_per_day", (6 : ℚ))])])]
        (fun _ => 6) (fun _ _ => 0) "dance" "x").allowed = true ∧
    (checkDailyLimits [("sns", [("posting", [("max_per_day", (6 : ℚ))])])]
        (fun _ => 6) (fun _ _ => 0) "dance" "x").limit = .inf := by
  have hb : qlookup [("sns", [("posting", [("max_per_day", (6 : ℚ))])])]
      "sns" "posting" "max_per_day" = some 6 := by
    simp [qlookup, List.lookup]
  have hm : limitMap "dance" = none := by decide
  have h := C2_daily_limits
    [("sns", [("posting", [("max_per_day", (6 : ℚ))])])]
    (fun _ => 6) (fun _ _ => 0) "x" hb rfl
  exact ⟨hb, rfl, h.1, h.2.1, hm, (h.2.2 "dance" "x" hm).1,
    (h.2.2 "dance" "x" hm).2⟩


theorem totalCount_setCount_dec (k : Char × Char) :
    ∀ m : List ((Char × Char) × Nat), 0 < getCount k m →
      totalCount (setCount k (getCount k m - 1) m) + 1 = totalCount m := by
  intro m
  induction m with
  | nil => intro h; simp [getCount] at h
  | cons e rest ih =>
    obtain ⟨k', n⟩ := e
    intro h
    by_cases hk : k' = k
    · subst hk
      simp [getCount, setCount, totalCount] at h ⊢
      omega
    · simp [getCount, setCount, totalCount, hk] at h ⊢
      have := ih h
      simp [totalCount] at this
      omega

theorem interLoop_le_total (gs : List (Char × Char)) :
    ∀ m, interLoop m gs ≤ totalCount m := by
  induction gs with
  | nil => intro m; simp [interLoop]
  | cons k rest ih =>
    intro m
    simp only [interLoop]
    by_cases h : 0 < getCount k m
    · rw [if_pos h]
      have h2 := totalCount_setCount_dec k m h
      have h3 := ih (setCount k (getCount k m - 1) m)
      omega
    · rw [if_neg h]
      exact ih m

theorem interLoop_le_len (gs : List (Char × Char)) :
    ∀ m, interLoop m gs ≤ gs.length := by
  induction gs with
  | nil => intro m; simp [interLoop]
  | cons k rest ih =>
    intro m
    simp only [interLoop, List.length_cons]
    by_cases h : 0 < getCount k m
    · rw [if_pos h]
      have := ih (setCount k (getCount k m - 1) m)
      omega
    · rw [if_neg h]
      have := ih m
      omega

theorem totalCount_bump (k : Char × Char) (m : List ((Char × Char) × Nat)) :
    totalCount (setCount k (getCount k m + 1) m) = totalCount m + 1 := by
  induction m with
  | nil => simp [setCount, getCount, totalCount]
  | cons e rest ih =>
    obtain ⟨k', n⟩ := e
    by_cases hk : k' = k
    · subst hk
      simp [getCount, setCount, totalCount]
      omega
    · simp [getCount, setCount, totalCount, hk] at ih ⊢
      omega

theorem totalCount_buildCounts (l : List (Char × Char)) :
    totalCount (buildCounts l) = l.length := by
  suffices h : ∀ m, totalCount (l.foldl (fun m k => setCount k (getCount k m + 1) m) m) =
      totalCount m + l.length by
    simpa [buildCounts, totalCount] using h []
  induction l with
  | nil => intro m; simp
  | cons k rest ih =>
    intro m
    simp only [List.foldl_cons, List.length_cons, ih, totalCount_bump]
    omega

theorem bigrams_length (l : List Char) : (bigrams l).length = l.length - 1 := by
  induction l with
  | nil => simp [bigrams]
  | cons a rest ih =>
    cases rest with
    | nil => simp [bigrams]
    | cons b rest2 =>
      simp only [bigrams, List.length_cons] at *
      omega

theorem diceRatio_le_one (f g : List Char) (hf2 : 2 ≤ f.length)
    (hg2 : 2 ≤ g.length) :
    2 * (interLoop (buildCounts (bigrams f)) (bigrams g) : ℚ) /
      ((f.length : ℚ) + (g.length : ℚ) - 2) ≤ 1 := by
  have hi1 : interLoop (buildCounts (bigrams f)) (bigrams g) ≤ f.length - 1 := by
    have := interLoop_le_total (bigrams g) (buildCounts (bigrams f))
    rwa [totalCount_buildCounts, bigrams_length] at this
  have hi2 : interLoop (buildCounts (bigrams f)) (bigrams g) ≤ g.length - 1 := by
    have := interLoop_le_len (bigrams g) (buildCounts (bigrams f))
    rwa [bigrams_length] at this
  have hnat : 2 * interLoop (buildCounts (bigrams f)) (bigrams g) ≤
      f.length + g.length - 2 := by omega
  have hsum : 2 ≤ f.length + g.length := by omega
  have hpos : (0 : ℚ) < (f.length : ℚ) + (g.length : ℚ) - 2 := by
    have h4 : 4 ≤ f.length + g.length := by omega
    have h4q : ((4 : ℕ) : ℚ) ≤ ((f.length + g.length : ℕ) : ℚ) :=
      Nat.cast_le.mpr h4
    push_cast at h4q
    linarith
  rw [div_le_one hpos]
  calc 2 * (interLoop (buildCounts (bigrams f)) (bigrams g) : ℚ)
      = ((2 * interLoop (buildCounts (bigrams f)) (bigrams g) : ℕ) : ℚ) := by
        push_cast; ring
    _ ≤ ((f.length + g.length - 2 : ℕ) : ℚ) := Nat.cast_le.mpr hnat
    _ = (f.length : ℚ) + (g.length : ℚ) - 2 := by
        rw [Nat.cast_sub hsum]; push_cast; ring

theorem compareTwoStrings_le_one (s1 s2 : String) :
    compareTwoStrings s1 s2 ≤ 1 := by
  unfold compareTwoStrings
  by_cases h1 : stripAllWs s1.data = stripAllWs s2.data
  · simp [h1]
  · rw [if_neg h1]
    by_cases h2 : (stripAllWs s1.data).length < 2 ∨ (stripAllWs s2.data).length < 2
    · simp [h2]
    · rw [if_neg h2]
      push_neg at h2
      exact diceRatio_le_one _ _ h2.1 h2.2

theorem compareTwoStrings_self (s : String) : compareTwoStrings s s = 1 := by
  simp [compareTwoStrings]

theorem bestAux_fst_ge_best :
    ∀ (rs : List ℚ) (best : ℚ) (bidx i : Nat),
      best ≤ (bestAux best bidx i rs).1 := by
  intro rs
  induction rs with
  | nil => intro best bidx i; simp [bestAux]
  | cons r rest ih =>
    intro best bidx i
    simp only [bestAux]
    by_cases h : best < r
    · rw [if_pos h]
      exact le_trans (le_of_lt h) (ih r i (i + 1))
    · rw [if_neg h]
      exact ih best bidx (i + 1)

theorem bestAux_fst_ge_mem :
    ∀ (rs : List ℚ) (best : ℚ) (bidx i : Nat) (x : ℚ), x ∈ rs →
      x ≤ (bestAux best bidx i rs).1 := by
  intro rs
  induction rs with
  | nil => intro best bidx i x hx; simp at hx
  | cons r rest ih =>
    intro best bidx i x hx
    simp only [bestAux]
    rcases List.mem_cons.mp hx with hx | hx
    · subst hx
      by_cases h : best < x
      · rw [if_pos h]
        exact bestAux_fst_ge_best rest x i (i + 1)
      · rw [if_neg h]
        exact le_trans (le_of_not_lt h) (bestAux_fst_ge_best rest best bidx (i + 1))
    · by_cases h : best < r
      · rw [if_pos h]
        exact ih r i (i + 1) x hx
      · rw [if_neg h]
        exact ih best bidx (i + 1) x hx

theorem bestAux_fst_mem :
    ∀ (rs : List ℚ) (best : ℚ) (bidx i : Nat),
      (bestAux best bidx i rs).1 = best ∨ (bestAux best bidx i rs).1 ∈ rs := by
  intro rs
  induction rs with
  | nil => intro best bidx i; left; simp [bestAux]
  | cons r rest ih =>
    intro best bidx i
    simp only [bestAux]
    by_cases h : best < r
    · rw [if_pos h]
      rcases ih r i (i + 1) with h2 | h2
      · right; rw [h2]; exact List.mem_cons_self r rest
      · right; exact List.mem_cons_of_mem r h2
    · rw [if_neg h]
      rcases ih best bidx (i + 1) with h2 | h2
      · left; exact h2
      · right; exact List.mem_cons_of_mem r h2

theorem findBestMatch_eq_one (main : String) (targets : List String)
    (h2 : ∃ t ∈ targets, compareTwoStrings main t = 1) :
    (findBestMatch main targets).1 = 1 := by
  cases targets with
  | nil => simp at h2
  | cons t ts =>
    simp only [findBestMatch, List.map_cons]
    obtain ⟨d, hd, hd1⟩ := h2
    have hle : (bestAux (compareTwoStrings main t) 0 1
        (ts.map (fun t => compareTwoStrings main t))).1 ≤ 1 := by
      rcases bestAux_fst_mem (ts.map (fun t => compareTwoStrings main t))
          (compareTwoStrings main t) 0 1 with h | h
      · rw [h]; exact compareTwoStrings_le_one main t
      · obtain ⟨u, hu, hu2⟩ := List.mem_map.mp h
        rw [← hu2]; exact compareTwoStrings_le_one main u
    have hge : 1 ≤ (bestAux (compareTwoStrings main t) 0 1
        (ts.map (fun t => compareTwoStrings main t))).1 := by
      rcases List.mem_cons.mp hd with h | h
      · subst h
        rw [← hd1]
        exact bestAux_fst_ge_best _ _ _ _
      · have : (1 : ℚ) ∈ ts.map (fun t => compareTwoStrings main t) := by
          rw [← hd1]
          exact List.mem_map_of_mem _ h
        exact bestAux_fst_ge_mem _ _ _ _ _ this
    exact le_antisymm hle hge

theorem strLenZero (s : String) (h : s.length = 0) : s = "" := by
  cases s with
  | mk data =>
    cases data with
    | nil => rfl
    | cons c cs => simp [String.length] at h

/-- C5 (amended): for every candidate `C` and corpus entry `D` whose
preprocessed forms are equal *and non-empty*, the similarity score against
a corpus containing `D` is 1, and `checkSimilarity` reports
`isSimilar = true` for any threshold ≤ 1. (The non-emptiness proviso is
forced by `C5_counterexample`: equal *empty* preprocessed forms score 0,
because `findMostSimilar` returns 0 for a candidate whose preprocessed
form is empty.) -/
theorem C5_preprocessed_duplicate (C D : String) (corpus : List String)
    (threshold : ℚ) (vt : Option ℚ) (db : String → List String)
    (plat : Option String)
    (hmem : D ∈ corpus) (heq : preprocessText C = preprocessText D)
    (hne : preprocessText C ≠ "") (ht : threshold ≤ 1) :
    (findMostSimilar C corpus).1 = 1 ∧
    (checkSimilarity vt db C ⟨some threshold, plat, some corpus⟩).highestSimilarity = 1 ∧
    (checkSimilarity vt db C ⟨some threshold, plat, some corpus⟩).isSimilar = true := by
  have hcne : corpus ≠ [] := by rintro rfl; simp at hmem
  have hlen : ¬(preprocessText C).length = 0 := fun h => hne (strLenZero _ h)
  have hfb : (findBestMatch (preprocessText C) (corpus.map preprocessText)).1 = 1 := by
    apply findBestMatch_eq_one
    exact ⟨preprocessText D, List.mem_map_of_mem _ hmem,
      by rw [heq]; exact compareTwoStrings_self _⟩
  have hfm : (findMostSimilar C corpus).1 = 1 := by
    simp only [findMostSimilar]
    rw [if_neg (by simp [hcne])]
    rw [if_neg hlen]
    exact hfb
  have hcs : checkSimilarity vt db C ⟨some threshold, plat, some corpus⟩ =
      ⟨decide (threshold ≤ (findMostSimilar C corpus).1),
        (findMostSimilar C corpus).1, (findMostSimilar C corpus).2, threshold⟩ := by
    simp only [checkSimilarity, Option.getD_some]
    rw [if_neg (by simp [hcne])]
  refine ⟨hfm, ?_, ?_⟩
  · rw [hcs]; exact hfm
  · rw [hcs]
    simp [hfm, ht]

/-- C5 counterexample: `"#ai"` and `"@bob"` preprocess to the same (empty)
string, yet the score is 0 (≠ 1) and `isSimilar = false` at threshold 0.6,
refuting the claim as stated (which requires only equal preprocessed
forms). -/
theorem C5_counterexample :
    preprocessText "#ai" = preprocessText "@bob" ∧
    (0.6 : ℚ) ≤ 1 ∧
    (checkSimilarity none (fun _ => []) "#ai"
      ⟨some 0.6, none, some ["@bob"]⟩).highestSimilarity ≠ 1 ∧
    (checkSimilarity none (fun _ => []) "#ai"
      ⟨some 0.6, none, some ["@bob"]⟩).isSimilar = false := by
  refine ⟨?_, by norm_num, ?_, ?_⟩ <;>
    simp [checkSimilarity, findMostSimilar, preprocessText, removeUrls,
      stripMarked, collapseWs, jsTrim, isWordChar, isJsWs, List.isPrefixOf] <;>
    norm_num

/-- Witness for C5 at a concrete pair with equal non-empty preprocessed
forms (`"Hello #x"` vs `"hello @y"`, both preprocessing to `"hello"`). -/
theorem C5_witness :
    "hello @y" ∈ ["hello @y"] ∧
    preprocessText "Hello #x" = preprocessText "hello @y" ∧
    preprocessText "Hello #x" ≠ "" ∧
    (0.6 : ℚ) ≤ 1 ∧
    (findMostSimilar "Hello #x" ["hello @y"]).1 = 1 ∧
    (checkSimilarity none (fun _ => []) "Hello #x"
      ⟨some 0.6, none, some ["hello @y"]⟩).highestSimilarity = 1 ∧
    (checkSimilarity none (fun _ => []) "Hello #x"
      ⟨some 0.6, none, some ["hello @y"]⟩).isSimilar = true := by
  have heq : preprocessText "Hello #x" = preprocessText "hello @y" := by
    simp [preprocessText, removeUrls, stripMarked, collapseWs, jsTrim,
      isWordChar, isJsWs, List.isPrefixOf]
  have hne : preprocessText "Hello #x" ≠ "" := by
    simp [preprocessText, removeUrls, stripMarked, collapseWs, jsTrim,
      isWordChar, isJsWs, List.isPrefixOf]
  have h := C5_preprocessed_duplicate "Hello #x" "hello @y" ["hello @y"]
    0.6 none (fun _ => []) none (by simp) heq hne (by norm_num)
  exact ⟨by simp, heq, hne, by norm_num, h.1, h.2.1, h.2.2⟩

/-- C10 (amended): content whose preprocessed form is empty is never
scored: against any non-empty corpus `checkSimilarity` returns
`highestSimilarity = 0`, and `isSimilar = false` for every *strictly
positive* threshold; `calculateSimilarity` returns 0 whenever either
preprocessed input is empty. (The positivity proviso is forced by
`C10_counterexample`: a caller-supplied threshold of 0 is kept — JS `??`
does not replace 0 — and `0 >= 0` makes `isSimilar` true.) -/
theorem C10_empty_preprocessed (content : String) (corpus : List String)
    (threshold : ℚ) (vt : Option ℚ) (db : String → List String)
    (plat : Option String)
    (hne : corpus ≠ [])
    (hempty : preprocessText content = "") :
    (checkSimilarity vt db content
      ⟨some threshold, plat, some corpus⟩).highestSimilarity = 0 ∧
    (0 < threshold →
      (checkSimilarity vt db content
        ⟨some threshold, plat, some corpus⟩).isSimilar = false) ∧
    ∀ t1 t2 : String, preprocessText t1 = "" ∨ preprocessText t2 = "" →
      calculateSimilarity t1 t2 = 0 := by
  have hfm : findMostSimilar content corpus = (0, none) := by
    simp only [findMostSimilar]
    rw [if_neg (by simp [hne])]
    rw [if_pos (by rw [hempty]; rfl)]
  have hcs : checkSimilarity vt db content ⟨some threshold, plat, some corpus⟩ =
      ⟨decide (threshold ≤ (findMostSimilar content corpus).1),
        (findMostSimilar content corpus).1,
        (findMostSimilar content corpus).2, threshold⟩ := by
    simp only [checkSimilarity, Option.getD_some]
    rw [if_neg (by simp [hne])]
  refine ⟨by rw [hcs, hfm], fun hpos => ?_, fun t1 t2 h12 => ?_⟩
  · rw [hcs, hfm]
    simp only [decide_eq_false_iff_not]
    exact fun hc => absurd hc (not_le.mpr hpos)
  · rcases h12 with h1 | h1 <;>
      simp [calculateSimilarity, h1]

/-- C10 counterexample: at threshold 0 the empty-preprocessed content
`"#ai"` is flagged similar (`0 >= 0`), refuting the claim as stated for
"every threshold". -/
theorem C10_counterexample :
    preprocessText "#ai" = "" ∧
    (checkSimilarity none (fun _ => []) "#ai"
      ⟨some 0, none, some ["hello"]⟩).highestSimilarity = 0 ∧
    (checkSimilarity none (fun _ => []) "#ai"
      ⟨some 0, none, some ["hello"]⟩).isSimilar = true := by
  refine ⟨?_, ?_, ?_⟩ <;>
    simp [checkSimilarity, findMostSimilar, preprocessText, removeUrls,
      stripMarked, collapseWs, jsTrim, isWordChar, isJsWs, List.isPrefixOf]

/-- Witness for C10 at the default-style threshold 0.6 with corpus
`["hello"]`. -/
theorem C10_witness :
    (["hello"] : List String) ≠ [] ∧
    preprocessText "#ai" = "" ∧
    (checkSimilarity none (fun _ => []) "#ai"
      ⟨some 0.6, none, some ["hello"]⟩).highestSimilarity = 0 ∧
    (0 : ℚ) < 0.6 ∧
    (checkSimilarity none (fun _ => []) "#ai"
      ⟨some 0.6, none, some ["hello"]⟩).isSimilar = false ∧
    calculateSimilarity "#ai" "xy" = 0 := by
  have hempty : preprocessText "#ai" = "" := by
    simp [preprocessText, removeUrls, stripMarked, collapseWs, jsTrim,
      isWordChar, isJsWs, List.isPrefixOf]
  have h := C10_empty_preprocessed "#ai" ["hello"] 0.6 none (fun _ => []) none
    (by simp) hempty
  exact ⟨by simp, hempty, h.1, by norm_num, h.2.1 (by norm_num),
    h.2.2 "#ai" "xy" (Or.inl hempty)⟩



theorem takeWhile_append_headNot {α : Type} (p : α → Bool) (b : List α)
    (hb : ∀ c, b.head? = some c → p c = false) :
    ∀ a : List α, (a ++ b).takeWhile p = a.takeWhile p ∧
      (a ++ b).dropWhile p = a.dropWhile p ++ b := by
  intro a
  induction a with
  | nil =>
    simp only [List.nil_append, List.takeWhile_nil, List.dropWhile_nil]
    cases b with
    | nil => simp
    | cons c cs =>
      have := hb c rfl
      simp [List.takeWhile_cons, List.dropWhile_cons, this]
  | cons x xs ih =>
    by_cases hx : p x = true
    · simp only [List.cons_append, List.takeWhile_cons, List.dropWhile_cons,
        hx, if_true, ih.1, ih.2]
      simp
    · simp only [List.cons_append, List.takeWhile_cons, List.dropWhile_cons,
        hx]
      simp [hx]

theorem scanHashtags_append (b : List Char)
    (hb : ∀ c, b.head? = some c → isWordChar c = false) :
    ∀ (n : Nat) (a : List Char), a.length ≤ n →
      scanHashtags (a ++ b) = scanHashtags a ++ scanHashtags b := by
  intro n
  induction n with
  | zero =>
    intro a ha
    have : a = [] := List.length_eq_zero.mp (Nat.le_zero.mp ha)
    subst this
    simp [scanHashtags]
  | succ n ih =>
    intro a ha
    match a with
    | [] => simp [scanHashtags]
    | c :: rest =>
      have hlen : rest.length ≤ n := by
        simp only [List.length_cons] at ha; omega
      by_cases hc : c = '#'
      · subst hc
        have htw := takeWhile_append_headNot isWordChar b hb rest
        rw [List.cons_append]
        simp only [scanHashtags, htw.1, htw.2]
        by_cases hw : (rest.takeWhile isWordChar).isEmpty
        · simp only [hw, if_true, if_pos rfl]
          exact ih rest hlen
        · simp only [hw, if_pos rfl, Bool.false_eq_true, if_false]
          rw [ih (rest.dropWhile isWordChar)
            (le_trans (lenDropWhileLe _ _) hlen)]
          simp
      · rw [List.cons_append]
        simp only [scanHashtags, if_neg hc]
        exact ih rest hlen

theorem takeWhile_all {α : Type} (p : α → Bool) :
    ∀ l : List α, (∀ c ∈ l, p c = true) →
      l.takeWhile p = l ∧ l.dropWhile p = [] := by
  intro l h
  induction l with
  | nil => simp
  | cons x xs ih =>
    have hx := h x (List.mem_cons_self _ _)
    have hxs := ih fun c hc => h c (List.mem_cons_of_mem _ hc)
    simp [List.takeWhile_cons, List.dropWhile_cons, hx, hxs.1, hxs.2]

theorem scanHashtags_nil : scanHashtags [] = [] := by
  simp [scanHashtags]

theorem scanHashtags_cons (c : Char) (l : List Char) :
    scanHashtags (c :: l) =
      if c = '#' then
        if (l.takeWhile isWordChar).isEmpty then scanHashtags l
        else ('#' :: l.takeWhile isWordChar) ::
          scanHashtags (l.dropWhile isWordChar)
      else scanHashtags l := by
  simp only [scanHashtags]

theorem scanHashtags_joinSpace :
    ∀ tags : List (List Char),
      (∀ t ∈ tags, ∃ w, t = '#' :: w ∧ w ≠ [] ∧ ∀ c ∈ w, isWordChar c = true) →
      scanHashtags (joinSpace tags) = tags := by
  intro tags
  induction tags with
  | nil => intro _; exact scanHashtags_nil
  | cons t ts ih =>
    intro h
    obtain ⟨w, ht, hw, hwc⟩ := h t (List.mem_cons_self _ _)
    have hta := takeWhile_all isWordChar w hwc
    have hwne : ¬(w.isEmpty = true) := by simp [List.isEmpty_iff, hw]
    cases ts with
    | nil =>
      subst ht
      show scanHashtags ('#' :: w) = [('#' :: w)]
      rw [scanHashtags_cons, if_pos rfl, hta.1, if_neg hwne, hta.2,
        scanHashtags_nil]
    | cons t2 ts2 =>
      subst ht
      show scanHashtags (('#' :: w) ++ ' ' :: joinSpace (t2 :: ts2)) = _
      have hsp : ∀ c : Char,
          ((' ' :: joinSpace (t2 :: ts2)).head? = some c) →
          isWordChar c = false := by
        intro c hc
        simp at hc
        subst hc
        decide
      have htw := takeWhile_append_headNot isWordChar
        (' ' :: joinSpace (t2 :: ts2)) hsp w
      rw [List.cons_append, scanHashtags_cons, if_pos rfl, htw.1, hta.1,
        if_neg hwne, htw.2, hta.2, List.nil_append, scanHashtags_cons,
        if_neg (by decide), ih (fun u hu => h u (List.mem_cons_of_mem _ hu))]

/-- C6 (amended): `add_hashtags` is idempotent for every content string and
every hashtag list whose entries are actual hashtag tokens — a `#` followed
by one or more word characters. (The shape proviso is forced by
`C6_counterexample`: a parameter tag that the `/#\w+/` scanner cannot
recognise, e.g. one without the leading `#`, is re-appended on every
application.) -/
theorem C6_add_hashtags_idempotent (content : String) (hashtags : List String)
    (hshape : ∀ h ∈ hashtags, ∃ w, h.data = '#' :: w ∧ w ≠ [] ∧
      ∀ c ∈ w, isWordChar c = true) :
    addHashtags (addHashtags content hashtags) hashtags =
      addHashtags content hashtags := by
  by_cases hnew : (hashtags.filter fun h =>
      !((scanHashtags content.data).map lowerChars).contains
        (lowerChars h.data)).isEmpty
  · have h1 : addHashtags content hashtags = content := by
      simp only [addHashtags, hnew, if_true]
    rw [h1]
    exact h1
  · have h1 : addHashtags content hashtags = String.mk (content.data ++
        '\n' :: '\n' :: joinSpace ((hashtags.filter fun h =>
          !((scanHashtags content.data).map lowerChars).contains
            (lowerChars h.data)).map String.data)) := by
      simp only [addHashtags]
      rw [if_neg (by simpa using hnew)]
    rw [h1]
    have hb : ∀ c : Char,
        (('\n' :: '\n' :: joinSpace ((hashtags.filter fun h =>
          !((scanHashtags content.data).map lowerChars).contains
            (lowerChars h.data)).map String.data)).head? = some c) →
        isWordChar c = false := by
      intro c hc
      simp at hc
      subst hc
      decide
    have hscan : scanHashtags (content.data ++
        '\n' :: '\n' :: joinSpace ((hashtags.filter fun h =>
          !((scanHashtags content.data).map lowerChars).contains
            (lowerChars h.data)).map String.data)) =
        scanHashtags content.data ++ (hashtags.filter fun h =>
          !((scanHashtags content.data).map lowerChars).contains
            (lowerChars h.data)).map String.data := by
      rw [scanHashtags_append _ hb content.data.length content.data le_rfl]
      congr 1
      rw [scanHashtags_cons, if_neg (by decide), scanHashtags_cons,
        if_neg (by decide)]
      apply scanHashtags_joinSpace
      intro t ht
      obtain ⟨hh, hmem, hdata⟩ := List.mem_map.mp ht
      obtain ⟨w, hw1, hw2, hw3⟩ := hshape hh (List.mem_of_mem_filter hmem)
      exact ⟨w, by rw [← hdata, hw1], hw2, hw3⟩
    have hall : ∀ h ∈ hashtags,
        ((scanHashtags (content.data ++
          '\n' :: '\n' :: joinSpace ((hashtags.filter fun h =>
            !((scanHashtags content.data).map lowerChars).contains
              (lowerChars h.data)).map String.data))).map lowerChars).contains
          (lowerChars h.data) = true := by
      intro h hmem
      rw [hscan, List.map_append]
      rw [List.elem_iff]
      by_cases hc : ((scanHashtags content.data).map lowerChars).contains
          (lowerChars h.data)
      · exact List.mem_append_left _ (List.elem_iff.mp hc)
      · refine List.mem_append_right _ ?_
        rw [List.map_map]
        refine List.mem_map.mpr ⟨h, ?_, rfl⟩
        exact List.mem_filter.mpr ⟨hmem, by simpa using hc⟩
    simp only [addHashtags]
    rw [if_pos]
    rw [List.isEmpty_iff, List.filter_eq_nil]
    intro h hmem
    have := hall h hmem
    simp only [String.data] at this ⊢
    rw [this]
    simp


/-- C6 counterexample: with the parameter tag `"ai"` (no leading `#`), the
appended text is not recognised by the `/#\w+/` scanner on the second pass,
so the tag is appended again: applying `add_hashtags` twice differs from
applying it once. -/
theorem C6_counterexample :
    addHashtags (addHashtags "" ["ai"]) ["ai"] ≠ addHashtags "" ["ai"] := by
  simp [addHashtags, scanHashtags, lowerChars, joinSpace, isWordChar]

/-- Witness for C6 with the well-shaped tag `"#ai"` on empty content. -/
theorem C6_witness :
    (∀ h ∈ ["#ai"], ∃ w, String.data h = '#' :: w ∧ w ≠ [] ∧
      ∀ c ∈ w, isWordChar c = true) ∧
    addHashtags (addHashtags "" ["#ai"]) ["#ai"] = addHashtags "" ["#ai"] := by
  have hshape : ∀ h ∈ ["#ai"], ∃ w, String.data h = '#' :: w ∧ w ≠ [] ∧
      ∀ c ∈ w, isWordChar c = true := by
    intro h hm
    simp at hm
    subst hm
    exact ⟨['a', 'i'], rfl, by decide, by decide⟩
  exact ⟨hshape, C6_add_hashtags_idempotent "" ["#ai"] hshape⟩


theorem natStr_ne (n : Nat) : (natStr n).data ≠ [] := by
  unfold natStr
  by_cases h : n = 0
  · simp [h]
  · rw [if_neg h]
    obtain ⟨m, rfl⟩ := Nat.exists_eq_succ_of_ne_zero h
    simp [natDigitsAux, h]

theorem intStr_ne (i : Int) : (intStr i).data ≠ [] := by
  unfold intStr
  by_cases h : i < 0
  · rw [if_pos h]
    rw [show ("-" ++ natStr i.natAbs).data =
      '-' :: (natStr i.natAbs).data from rfl]
    simp
  · rw [if_neg h]
    exact natStr_ne _


theorem numStr_ne (q : ℚ) : (numStr q).data ≠ [] := by
  unfold numStr
  by_cases h : q.den = 1
  · rw [if_pos h]
    exact intStr_ne _
  · rw [if_neg h]
    intro hc
    rw [show (intStr q.num ++ "/" ++ natStr q.den).data =
      ((intStr q.num).data ++ ['/']) ++ (natStr q.den).data from rfl] at hc
    rw [List.append_eq_nil] at hc
    exact intStr_ne q.num (List.append_eq_nil.mp hc.1).1

theorem jsonStr_ne (v : Value) : (jsonStr v).data ≠ [] := by
  cases v with
  | vNull => simp [jsonStr]
  | vBool b => cases b <;> simp [jsonStr]
  | vNum q => exact numStr_ne q
  | vStr s =>
    intro hc
    have : (("\"" ++ String.mk (jsonEscape s.data) ++ "\"").data) =
        '"' :: (jsonEscape s.data ++ ['"']) := rfl
    rw [jsonStr, this] at hc
    cases hc
  | vList xs =>
    intro hc
    have : (("[" ++ jsonStrList xs ++ "]").data) =
        '[' :: ((jsonStrList xs).data ++ [']']) := rfl
    rw [jsonStr, this] at hc
    cases hc
  | vObj fs =>
    intro hc
    have : (("\x7b" ++ jsonStrFields fs ++ "\x7d").data) =
        '\x7b' :: ((jsonStrFields fs).data ++ ['\x7d']) := rfl
    rw [jsonStr, this] at hc
    cases hc

theorem strNeOfData {s : String} (h : s.data ≠ []) : s ≠ "" := by
  intro hc
  subst hc
  exact h rfl

theorem dataNeOfStr {s : String} (h : s ≠ "") : s.data ≠ [] := by
  intro hc
  apply h
  cases s with
  | mk l =>
    cases l with
    | nil => rfl
    | cons c cs => cases hc


theorem scanTemplate_ne_nil (repl : String → String)
    (hr : ∀ p, p ≠ "" → (repl p).data ≠ []) :
    ∀ l : List Char, l ≠ [] → scanTemplate repl l ≠ [] := by
  intro l hl
  rw [scanTemplate.eq_def]
  split
  · exact absurd rfl hl
  · rename_i rest
    split
    · rename_i tail heq
      by_cases hw : (rest.takeWhile (fun c => c ≠ '\x7d')).isEmpty
      · rw [if_pos hw]
        simp
      · rw [if_neg hw]
        intro hc
        rw [List.append_eq_nil] at hc
        refine hr (String.mk (rest.takeWhile (fun c => c ≠ '\x7d'))) ?_ hc.1
        intro hs
        apply hw
        have : rest.takeWhile (fun c => c ≠ '\x7d') = [] := by
          have := congrArg String.data hs
          exact this
        rw [this]
        rfl
    · simp
  · simp

theorem scanIdent_ne_nil (repl : String → String)
    (hr : ∀ p, p ≠ "" → (repl p).data ≠ []) :
    ∀ l : List Char, l ≠ [] → scanIdent repl l ≠ [] := by
  intro l hl
  rw [scanIdent.eq_def]
  split
  · exact absurd rfl hl
  · rename_i c rest
    by_cases hs : isIdentStart c
    · rw [if_pos hs]
      intro hc
      rw [List.append_eq_nil] at hc
      exact hr (String.mk (c :: rest.takeWhile isIdentCont)) (by
        intro he
        exact absurd (congrArg String.data he) (by simp)) hc.1
    · rw [if_neg hs]
      simp

theorem jsonReplacement_ne (ctx : Ctx) (p : String) (hp : p ≠ "") :
    (jsonReplacement ctx p).data ≠ [] := by
  unfold jsonReplacement
  match getValueFromContext p ctx with
  | some v => exact jsonStr_ne v
  | none => simp

theorem identReplacement_ne (ctx : Ctx) (p : String) (hp : p ≠ "") :
    (identReplacement ctx p).data ≠ [] := by
  unfold identReplacement
  by_cases hk : p = "true" ∨ p = "false" ∨ p = "null" ∨ p = "undefined"
  · rw [if_pos hk]
    exact dataNeOfStr hp
  · rw [if_neg hk]
    match getValueFromContext p ctx with
    | some v => exact jsonStr_ne v
    | none => exact dataNeOfStr hp

/-- C9: the condition evaluator first substitutes `$\x7b...\x7d` references and
bare identifiers with the serialized (JSON) form of their resolved context
values, then returns the truthiness of the resulting *string*;
consequently for every non-empty condition string and every execution
context the substituted string is non-empty and `evaluateCondition`
returns `true`, and it returns `false` exactly for the empty condition
string. -/
theorem C9_condition_truthiness (cond : String) (ctx : Ctx) :
    evaluateCondition cond ctx = !(substCondition cond ctx).isEmpty ∧
    (cond ≠ "" → substCondition cond ctx ≠ "" ∧
      evaluateCondition cond ctx = true) ∧
    (evaluateCondition cond ctx = false ↔ cond = "") := by
  have hmain : cond ≠ "" → substCondition cond ctx ≠ "" := by
    intro hne
    have h1 : scanTemplate (jsonReplacement ctx) cond.data ≠ [] :=
      scanTemplate_ne_nil _ (jsonReplacement_ne ctx) _ (dataNeOfStr hne)
    have h2 : scanIdent (identReplacement ctx)
        (scanTemplate (jsonReplacement ctx) cond.data) ≠ [] :=
      scanIdent_ne_nil _ (identReplacement_ne ctx) _ h1
    exact strNeOfData h2
  have htrue : cond ≠ "" → evaluateCondition cond ctx = true := by
    intro h
    have hne := hmain h
    unfold evaluateCondition
    have : (substCondition cond ctx).isEmpty = false := by
      rw [Bool.eq_false_iff]
      intro hc
      exact hne (String.isEmpty_iff _ |>.mp hc)
    rw [this]
    rfl
  refine ⟨rfl, fun h => ⟨hmain h, htrue h⟩, ?_, ?_⟩
  · intro hfalse
    by_contra hc
    rw [htrue hc] at hfalse
    cases hfalse
  · intro h
    subst h
    have h1 : scanTemplate (jsonReplacement ctx) [] = [] := by
      rw [scanTemplate.eq_def]
    have h2 : scanIdent (identReplacement ctx) [] = [] := by
      rw [scanIdent.eq_def]
    show (!(substCondition "" ctx).isEmpty) = false
    unfold substCondition
    rw [show ("" : String).data = [] from rfl, h1, h2]
    rfl


/-- Witness for C9: `"count > 0"` against a context with `count = 5`
substitutes to `"5 > 0"` and evaluates true; the empty condition evaluates
false. -/
theorem C9_witness :
    ("count > 0" : String) ≠ "" ∧
    substCondition "count > 0"
      ⟨[("count", .vNum 5)], [], .vNull, .vNull, .vNull, none⟩ = "5 > 0" ∧
    evaluateCondition "count > 0"
      ⟨[("count", .vNum 5)], [], .vNull, .vNull, .vNull, none⟩ = true ∧
    evaluateCondition ""
      ⟨[("count", .vNum 5)], [], .vNull, .vNull, .vNull, none⟩ = false := by
  have hne : ("count > 0" : String) ≠ "" := by decide
  have h := C9_condition_truthiness "count > 0"
    ⟨[("count", .vNum 5)], [], .vNull, .vNull, .vNull, none⟩
  have h0 := C9_condition_truthiness ""
    ⟨[("count", .vNum 5)], [], .vNull, .vNull, .vNull, none⟩
  refine ⟨hne, ?_, (h.2.1 hne).2, h0.2.2.mpr rfl⟩
  simp [substCondition, scanTemplate, scanIdent, identReplacement,
    jsonReplacement, getValueFromContext, mergedGet, cleanPath, rootLookup,
    walkValue, jsonStr, numStr, intStr, natStr, natDigitsAux, isIdentStart,
    isIdentCont, List.isPrefixOf, List.lookup, splitDots, splitOnChar,
    strToNat?]


/-- C3 counterexample: on the two-step queue-pop/post pipeline run dry
with an empty queue, `stepsExecuted` is 2, not 1 — a skipped `queue_pop`
does not stop the loop, and the `channel.post` step is still dispatched
(returning a dry-run synthetic result). -/
theorem C3_counterexample :
    (runPipeline c3collab "post-queue" (some c3pipeline) c3opts
      c3env).1.stepsExecuted ≠ 1 := by
  have h : (runPipeline c3collab "post-queue" (some c3pipeline) c3opts
      c3env).1.stepsExecuted = 2 := by
    simp [runPipeline, condFailOf, runSteps, executeStep, executeBuiltinAction,
      resolveStep, resolveVariable, scanTemplate, mergedGet, splitDots,
      splitOnChar, rootLookup, walkValue, valueGet, upsert, createContext,
      c3pipeline, c3step1, c3step2, c3collab, c3opts, c3env, runHandlers,
      PStep.condition, PStep.enabled, PStep.action, PStep.service,
      PStep.query, PStep.for_each, PStep.output, PStep.name, PStep.input,
      PStep.params, PStep.on_fail, PStep.max_iterations, PStep.steps,
      jsToString, List.lookup, strToNat?, storeOutput, storeOutputAcc]
  rw [h]
  omega

/-- C3 (amended): on the pipeline
`[{action: queue_pop, output: item}, {action: channel.post,
input: ${item.content}}]` run with `dryRun = true` on an empty queue, the
first step returns `skipped = true` with the queue-empty reason, the
overall result has `success = true` and `stepsExecuted = 2` (the skipped
pop does not abort the loop), `results.item` is stored as JS `undefined`,
and no post is performed: the post step yields the synthetic dry-run
output and the only collaborator effect of the whole run is the dry-run
log line — no notification, queue write, or publisher call. -/
theorem C3_empty_queue_dry_run :
    (executeStep c3collab c3opts c3step1 (createContext c3collab c3opts)
      c3env).1.skipped = true ∧
    (executeStep c3collab c3opts c3step1 (createContext c3collab c3opts)
      c3env).1.skipReason = some "Queue is empty" ∧
    (runPipeline c3collab "post-queue" (some c3pipeline) c3opts
      c3env).1.success = true ∧
    (runPipeline c3collab "post-queue" (some c3pipeline) c3opts
      c3env).1.stepsExecuted = 2 ∧
    (runPipeline c3collab "post-queue" (some c3pipeline) c3opts
      c3env).1.results = [("item", none)] ∧
    (runPipeline c3collab "post-queue" (some c3pipeline) c3opts
      c3env).2 = ⟨[], [], ["[DRY RUN] Would post to channel"], [], []⟩ := by
  refine ⟨?_, ?_, ?_, ?_, ?_, ?_⟩ <;>
    simp [runPipeline, condFailOf, runSteps, executeStep, executeBuiltinAction,
      resolveStep, resolveVariable, scanTemplate, mergedGet, splitDots,
      splitOnChar, rootLookup, walkValue, valueGet, upsert, createContext,
      c3pipeline, c3step1, c3step2, c3collab, c3opts, c3env, runHandlers,
      PStep.condition, PStep.enabled, PStep.action, PStep.service,
      PStep.query, PStep.for_each, PStep.output, PStep.name, PStep.input,
      PStep.params, PStep.on_fail, PStep.max_iterations, PStep.steps,
      jsToString, List.lookup, strToNat?, storeOutput, storeOutputAcc]

/-- C7: in a sequential pipeline, a step with `on_fail: continue` whose
handler fails (a non-skipped failure result) does not stop the run: the
loop continues into the remaining steps from the updated state (so the
remaining steps execute exactly as they would on their own), the failing
step is counted in `stepsExecuted`, its error is recorded at the front of
the run's error list, and the overall `PipelineResult.success` is `false`.
The loop-level part quantifies over an arbitrary reached state
`(ctx, acc, env)`, covering a failing step at any position. -/
theorem C7_on_fail_continue (co : Collab) (opts : RunOptions) (s : PStep)
    (rest : List PStep) (ctx : Ctx) (acc : List (String × Option Value))
    (env : Env)
    (hfail : (executeStep co opts s ctx env).1.success = false)
    (hskip : (executeStep co opts s ctx env).1.skipped = false)
    (hcont : s.on_fail.map OnFailAction.action = some "continue") :
    (runSteps co opts (s :: rest) ctx acc env).stepsExecuted =
      (runSteps co opts rest
        (storeOutput s (executeStep co opts s ctx env).1 ctx)
        (storeOutputAcc s (executeStep co opts s ctx env).1 acc)
        (executeStep co opts s ctx env).2).stepsExecuted + 1 ∧
    (runSteps co opts (s :: rest) ctx acc env).errors =
      stepErrMsg s (executeStep co opts s ctx env).1 ::
      (runSteps co opts rest
        (storeOutput s (executeStep co opts s ctx env).1 ctx)
        (storeOutputAcc s (executeStep co opts s ctx env).1 acc)
        (executeStep co opts s ctx env).2).errors ∧
    (∀ pid (p : Pipeline), p.steps = some (s :: rest) → opts.force = true →
      ctx = createContext co opts → acc = [] →
      (runPipeline co pid (some p) opts env).1.success = false ∧
      stepErrMsg s (executeStep co opts s ctx env).1 ∈
        (runPipeline co pid (some p) opts env).1.errors ∧
      (runPipeline co pid (some p) opts env).1.stepsExecuted =
        (runSteps co opts rest
          (storeOutput s (executeStep co opts s ctx env).1 ctx)
          (storeOutputAcc s (executeStep co opts s ctx env).1 acc)
          (executeStep co opts s ctx env).2).stepsExecuted + 1) := by
  have hstep : runSteps co opts (s :: rest) ctx acc env =
      ⟨(runSteps co opts rest
          (storeOutput s (executeStep co opts s ctx env).1 ctx)
          (storeOutputAcc s (executeStep co opts s ctx env).1 acc)
          (executeStep co opts s ctx env).2).stepsExecuted + 1,
        (runSteps co opts rest
          (storeOutput s (executeStep co opts s ctx env).1 ctx)
          (storeOutputAcc s (executeStep co opts s ctx env).1 acc)
          (executeStep co opts s ctx env).2).results,
        stepErrMsg s (executeStep co opts s ctx env).1 ::
          (runSteps co opts rest
            (storeOutput s (executeStep co opts s ctx env).1 ctx)
            (storeOutputAcc s (executeStep co opts s ctx env).1 acc)
            (executeStep co opts s ctx env).2).errors,
        (runSteps co opts rest
          (storeOutput s (executeStep co opts s ctx env).1 ctx)
          (storeOutputAcc s (executeStep co opts s ctx env).1 acc)
          (executeStep co opts s ctx env).2).thrown,
        (runSteps co opts rest
          (storeOutput s (executeStep co opts s ctx env).1 ctx)
          (storeOutputAcc s (executeStep co opts s ctx env).1 acc)
          (executeStep co opts s ctx env).2).ctx,
        (runSteps co opts rest
          (storeOutput s (executeStep co opts s ctx env).1 ctx)
          (storeOutputAcc s (executeStep co opts s ctx env).1 acc)
          (executeStep co opts s ctx env).2).env⟩ := by
    simp only [runSteps]
    rw [if_pos ⟨hfail, hskip⟩, if_pos hcont]
  refine ⟨by rw [hstep], by rw [hstep], ?_⟩
  intro pid p hsteps hforce hctx hacc
  subst hctx
  subst hacc
  obtain ⟨pid2, conds, psteps, pphases, ponc, pone⟩ := p
  have hst : psteps = some (s :: rest) := hsteps
  subst hst
  unfold runPipeline
  have hcf : condFailOf co opts
      ⟨pid2, conds, some (s :: rest), pphases, ponc, pone⟩ = none := by
    simp [condFailOf, hforce]
  simp only [hcf, hstep]
  cases hth : (runSteps co opts rest
      (storeOutput s (executeStep co opts s (createContext co opts) env).1
        (createContext co opts))
      (storeOutputAcc s
        (executeStep co opts s (createContext co opts) env).1 [])
      (executeStep co opts s (createContext co opts) env).2).thrown with
  | none => simp
  | some e => simp

/-- Witness for C7: the unknown-service step fails (not skipped), carries
`on_fail: continue`, and the two-step pipeline still executes the trailing
`log` step: `stepsExecuted = 2`, the error is recorded, and the run's
`success` is `false`. -/
theorem C7_witness :
    (executeStep c3collab c7opts c7step (createContext c3collab c7opts)
      c3env).1.success = false ∧
    (executeStep c3collab c7opts c7step (createContext c3collab c7opts)
      c3env).1.skipped = false ∧
    c7step.on_fail.map OnFailAction.action = some "continue" ∧
    (runSteps c3collab c7opts [c7step, c7after]
      (createContext c3collab c7opts) [] c3env).stepsExecuted = 2 ∧
    (runSteps c3collab c7opts [c7step, c7after]
      (createContext c3collab c7opts) [] c3env).errors =
      ["Step bad: Unknown service: nope"] ∧
    (runPipeline c3collab "p7" (some c7pipeline) c7opts c3env).1.success =
      false ∧
    "Step bad: Unknown service: nope" ∈
      (runPipeline c3collab "p7" (some c7pipeline) c7opts c3env).1.errors := by
  have h1 : (executeStep c3collab c7opts c7step
      (createContext c3collab c7opts) c3env).1.success = false := by
    simp [executeStep, executeService, resolveStep, resolveVariable,
      scanTemplate, c7step, c3collab, c7opts, c3env, createContext,
      PStep.condition, PStep.enabled, PStep.action, PStep.service,
      PStep.query, PStep.for_each, PStep.input, PStep.name,
      splitOnChar, joinSlash]
  have h2 : (executeStep c3collab c7opts c7step
      (createContext c3collab c7opts) c3env).1.skipped = false := by
    simp [executeStep, executeService, resolveStep, resolveVariable,
      scanTemplate, c7step, c3collab, c7opts, c3env, createContext,
      PStep.condition, PStep.enabled, PStep.action, PStep.service,
      PStep.query, PStep.for_each, PStep.input, PStep.name,
      splitOnChar, joinSlash]
  have h3 : c7step.on_fail.map OnFailAction.action = some "continue" := by
    simp [c7step, PStep.on_fail]
  have H := C7_on_fail_continue c3collab c7opts c7step [c7after]
    (createContext c3collab c7opts) [] c3env h1 h2 h3
  have hrest : (runSteps c3collab c7opts [c7after]
      (storeOutput c7step (executeStep c3collab c7opts c7step
        (createContext c3collab c7opts) c3env).1
        (createContext c3collab c7opts))
      (storeOutputAcc c7step (executeStep c3collab c7opts c7step
        (createContext c3collab c7opts) c3env).1 [])
      (executeStep c3collab c7opts c7step
        (createContext c3collab c7opts) c3env).2).stepsExecuted = 1 ∧
      (runSteps c3collab c7opts [c7after]
      (storeOutput c7step (executeStep c3collab c7opts c7step
        (createContext c3collab c7opts) c3env).1
        (createContext c3collab c7opts))
      (storeOutputAcc c7step (executeStep c3collab c7opts c7step
        (createContext c3collab c7opts) c3env).1 [])
      (executeStep c3collab c7opts c7step
        (createContext c3collab c7opts) c3env).2).errors = [] := by
    constructor <;>
      simp [runSteps, executeStep, executeBuiltinAction, executeService,
        resolveStep, resolveVariable, scanTemplate, msgOf, c7step, c7after,
        c3collab, c7opts, c3env, createContext, storeOutput, storeOutputAcc,
        PStep.condition, PStep.enabled, PStep.action, PStep.service,
        PStep.query, PStep.for_each, PStep.input, PStep.name, PStep.output,
        PStep.params, PStep.on_fail, PStep.max_iterations, PStep.steps,
        splitOnChar, joinSlash, List.lookup]
  have hmsg : stepErrMsg c7step (executeStep c3collab c7opts c7step
      (createContext c3collab c7opts) c3env).1 =
      "Step bad: Unknown service: nope" := by
    simp [stepErrMsg, executeStep, executeService, resolveStep,
      resolveVariable, scanTemplate, c7step, c3collab, c7opts, c3env,
      createContext, PStep.condition, PStep.enabled, PStep.action,
      PStep.service, PStep.query, PStep.for_each, PStep.input, PStep.name,
      splitOnChar, joinSlash]
  have HP := H.2.2 "p7" c7pipeline (by simp [c7pipeline]) rfl rfl rfl
  refine ⟨h1, h2, h3, ?_, ?_, HP.1, ?_⟩
  · rw [H.1, hrest.1]
  · rw [H.2.1, hrest.2, hmsg]
  · rw [← hmsg]
    exact HP.2.1

/-- C8 counterexample: a run that returns `success = false` (its only
step failed under `on_fail: continue`) does *not* invoke the `on_error`
handlers — the no-throw path runs `on_complete` instead, so the log trace
contains the completion message and not the error-handler message. -/
theorem C8_counterexample :
    (runPipeline c3collab "p8" (some c8pipeline) c7opts c3env).1.success =
      false ∧
    (runPipeline c3collab "p8" (some c8pipeline) c7opts c3env).2.logs =
      ["CMSG"] ∧
    "EMSG" ∉ (runPipeline c3collab "p8" (some c8pipeline) c7opts
      c3env).2.logs := by
  refine ⟨?_, ?_, ?_⟩ <;>
    simp [runPipeline, condFailOf, runSteps, runHandlers, executeAction, executeStep,
      executeService, resolveStep, resolveVariable, resolveSmallVariable,
      scanTemplate, firstTruthyStr, c8pipeline, c7step, c3collab, c7opts,
      c3env, createContext, storeOutput, storeOutputAcc, stepErrMsg,
      PStep.condition, PStep.enabled, PStep.action, PStep.service,
      PStep.query, PStep.for_each, PStep.input, PStep.name, PStep.output,
      PStep.params, PStep.on_fail, PStep.max_iterations, PStep.steps,
      splitOnChar, joinSlash]

/-- C8 (amended): `on_error` handlers run exactly once — the final
collaborator state is exactly one `runHandlers` pass over `on_error` —
when and only when the steps loop ends with a thrown error; the context's
`results.error` is set to the triggering message before they run, and the
result carries `success = false` with that error. Every other outcome
skips `on_error`: a steps run that ends without a throw runs the
`on_complete` handlers instead — even when it returns `success = false`
because of `continue`-recorded errors; a run stopped by the precondition
gate (which reports exactly the failing `checkConditions` verdict when
`force` is off) returns `success = false` with the environment untouched,
so neither handler list runs; a phases run always ends in the
`on_complete` handlers with `success` exactly "no accumulated phase
errors"; and a missing pipeline returns a failed result with no handler
invocation at all. -/
theorem C8_error_handler_dispatch (co : Collab) (opts : RunOptions)
    (env : Env) (pid : String) (p : Pipeline) :
    (∀ steps e, p.steps = some steps → condFailOf co opts p = none →
      (runSteps co opts steps (createContext co opts) [] env).thrown =
        some e →
      (runPipeline co pid (some p) opts env).2 =
        (match p.on_error with
         | some handlers =>
           runHandlers
             (errCtx (runSteps co opts steps (createContext co opts) []
               env).ctx e)
             handlers
             (runSteps co opts steps (createContext co opts) [] env).env
         | none => (runSteps co opts steps (createContext co opts) []
             env).env) ∧
      (runPipeline co pid (some p) opts env).1.success = false ∧
      (runPipeline co pid (some p) opts env).1.error = some e) ∧
    (∀ steps, p.steps = some steps → condFailOf co opts p = none →
      (runSteps co opts steps (createContext co opts) [] env).thrown =
        none →
      (runPipeline co pid (some p) opts env).2 =
        runHandlers
          (runSteps co opts steps (createContext co opts) [] env).ctx
          (p.on_complete.getD [])
          (runSteps co opts steps (createContext co opts) [] env).env ∧
      ((runPipeline co pid (some p) opts env).1.success = false ↔
        (runSteps co opts steps (createContext co opts) [] env).errors ≠
          []) ∧
      (runPipeline co pid (some p) opts env).1.error = none) ∧
    (∀ cc, condFailOf co opts p = some cc →
      (runPipeline co pid (some p) opts env).2 = env ∧
      (runPipeline co pid (some p) opts env).1.success = false ∧
      (runPipeline co pid (some p) opts env).1.error = none) ∧
    (∀ phases, p.steps = none → p.phases = some phases →
      condFailOf co opts p = none →
      (runPipeline co pid (some p) opts env).2 =
        runHandlers (createContext co opts) (p.on_complete.getD [])
          (runPhases co opts phases (createContext co opts) []
            env).2.2.2 ∧
      ((runPipeline co pid (some p) opts env).1.success = false ↔
        (runPhases co opts phases (createContext co opts) [] env).2.2.1 ≠
          []) ∧
      (runPipeline co pid (some p) opts env).1.error = none) ∧
    (∀ conds, opts.force = false → p.conditions = some conds →
      (checkConditions co conds).passed = false →
      condFailOf co opts p = some (checkConditions co conds)) ∧
    (runPipeline co pid none opts env).2 = env ∧
    (runPipeline co pid none opts env).1.success = false := by
  obtain ⟨pid2, pconds, psteps, pphases, ponc, pone⟩ := p
  refine ⟨?_, ?_, ?_, ?_, ?_, rfl, rfl⟩
  · intro steps e hsteps hgate hth
    have hst : psteps = some steps := hsteps
    subst hst
    unfold runPipeline
    simp only [hgate]
    rw [hth]
    exact ⟨rfl, rfl, rfl⟩
  · intro steps hsteps hgate hth
    have hst : psteps = some steps := hsteps
    subst hst
    unfold runPipeline
    simp only [hgate]
    rw [hth]
    refine ⟨rfl, ?_, rfl⟩
    simp [List.isEmpty_iff]
  · intro cc hgate
    unfold runPipeline
    simp only [hgate]
    simp
  · intro phases hsteps hphases hgate
    have hst : psteps = none := hsteps
    subst hst
    have hph : pphases = some phases := hphases
    subst hph
    unfold runPipeline
    simp only [hgate]
    refine ⟨trivial, ?_, trivial⟩
    simp [List.isEmpty_iff]
  · intro conds hforce hconds hfail
    have hc : pconds = some conds := hconds
    subst hc
    unfold condFailOf
    rw [hforce]
    simp [hfail]

/-- Witness for C8 on all three run shapes: a thrown step error dispatches
the `on_error` handlers exactly once — the final log trace is the single
handler line — and the result carries the thrown error; a run stopped by a
failing clock window returns `success = false` with the environment
completely untouched (neither handler list ran); and a phases run ends in
the `on_complete` handlers — its log trace is the `on_complete` line,
never the `on_error` one — with no `error` field. -/
theorem C8_witness :
    c8throwPipeline.steps = some [c8throwStep] ∧
    condFailOf c3collab c7opts c8throwPipeline = none ∧
    (runSteps c3collab c7opts [c8throwStep] (createContext c3collab c7opts)
      [] c3env).thrown = some "Unknown service: nope" ∧
    (runPipeline c3collab "p8w" (some c8throwPipeline) c7opts
      c3env).1.success = false ∧
    (runPipeline c3collab "p8w" (some c8throwPipeline) c7opts
      c3env).1.error = some "Unknown service: nope" ∧
    (runPipeline c3collab "p8w" (some c8throwPipeline) c7opts
      c3env).2.logs = ["EMSG"] ∧
    c3opts.force = false ∧
    (checkConditions c3collab ⟨some ⟨"10:00", "11:00"⟩, none⟩).passed =
      false ∧
    (runPipeline c3collab "p8c" (some c8condPipeline) c3opts c3env).2 =
      c3env ∧
    (runPipeline c3collab "p8c" (some c8condPipeline) c3opts
      c3env).1.success = false ∧
    c8phasePipeline.steps = none ∧
    condFailOf c3collab c3opts c8phasePipeline = none ∧
    (runPipeline c3collab "p8d" (some c8phasePipeline) c3opts
      c3env).2.logs = ["CMSG"] ∧
    (runPipeline c3collab "p8d" (some c8phasePipeline) c3opts
      c3env).1.error = none := by
  have hth : (runSteps c3collab c7opts [c8throwStep]
      (createContext c3collab c7opts) [] c3env).thrown =
      some "Unknown service: nope" := by
    simp [runSteps, executeStep, executeService, resolveStep,
      resolveVariable, scanTemplate, thrownMsg, c8throwStep, c3collab,
      c7opts, c3env, createContext, storeOutput, storeOutputAcc,
      PStep.condition, PStep.enabled, PStep.action, PStep.service,
      PStep.query, PStep.for_each, PStep.input, PStep.name, PStep.output,
      PStep.on_fail, splitOnChar, joinSlash]
  have hgw : condFailOf c3collab c7opts c8throwPipeline = none := by
    simp [condFailOf, c7opts]
  have H := C8_error_handler_dispatch c3collab c7opts c3env "p8w"
    c8throwPipeline
  have H1 := H.1 [c8throwStep] "Unknown service: nope" rfl hgw hth
  have hccfail : (checkConditions c3collab
      ⟨some ⟨"10:00", "11:00"⟩, none⟩).passed = false := by decide
  have Hc := C8_error_handler_dispatch c3collab c3opts c3env "p8c"
    c8condPipeline
  have hgc : condFailOf c3collab c3opts c8condPipeline =
      some (checkConditions c3collab ⟨some ⟨"10:00", "11:00"⟩, none⟩) :=
    Hc.2.2.2.2.1 ⟨some ⟨"10:00", "11:00"⟩, none⟩ rfl rfl hccfail
  have Hc3 := Hc.2.2.1 (checkConditions c3collab
    ⟨some ⟨"10:00", "11:00"⟩, none⟩) hgc
  have Hd := C8_error_handler_dispatch c3collab c3opts c3env "p8d"
    c8phasePipeline
  have hgd : condFailOf c3collab c3opts c8phasePipeline = none := by
    simp [condFailOf, c3opts, c8phasePipeline]
  have Hd4 := Hd.2.2.2.1
    [⟨"ph", none, [⟨"noop_action", none, none, none⟩]⟩] rfl rfl hgd
  refine ⟨rfl, hgw, hth, H1.2.1, H1.2.2, ?_, rfl, hccfail, Hc3.1,
    Hc3.2.1, rfl, hgd, ?_, Hd4.2.2⟩
  · rw [H1.1]
    simp [runSteps, runHandlers, executeAction, executeStep,
      executeService, resolveStep, resolveVariable, resolveSmallVariable,
      scanTemplate, firstTruthyStr, errCtx, c8throwPipeline, c8throwStep,
      c3collab, c7opts, c3env, createContext, storeOutput, storeOutputAcc,
      thrownMsg, PStep.condition, PStep.enabled, PStep.action,
      PStep.service, PStep.query, PStep.for_each, PStep.input, PStep.name,
      PStep.output, PStep.on_fail, splitOnChar, joinSlash]
  · rw [Hd4.1]
    simp [runPhases, executePhase, runPhaseTasks, taskToStep, executeStep,
      executeBuiltinAction, resolveStep, resolveVariable, scanTemplate,
      runHandlers, executeAction, resolveSmallVariable, firstTruthyStr,
      phaseValue, c8phasePipeline, c3collab, c3opts, c3env, createContext,
      msgOf, PStep.condition, PStep.enabled, PStep.action, PStep.service,
      PStep.query, PStep.for_each, PStep.input, PStep.name, PStep.output,
      PStep.on_fail, PStep.params, PStep.max_iterations, PStep.steps,
      splitOnChar, joinSlash, List.lookup]

end Clawup
